import Mathlib

/-!
Verification of the InsurancePolicyParser pipeline-and-retrieval subsystem.

We give a shallow embedding of the repository's core logic:

* `scripts/store_policy_chunks.py` — `chunk_policy_json` (the Chunking Engine);
* `app/services/vector_service.py` — `get_text_embedding` and
  `search_similar_chunks` (Embedding Store and Retrieval Engine);
* `pipeline_tasks.py` — `process_documents_step`, `vector_processing_step`,
  `extract_policy_numbers_from_docs` (the Pipeline Orchestrator);
* `app/routes/api_adapter_routes.py` — the `ProcessingTask` record created by
  the synchronous `upload_policy` path, and `app/models.py` — its defaults.

Python strings are modelled as `List Char` (Python slices strings by code
points), Python floats as exact rationals `ℚ`, Python `None`-able values as
`Option`.  External collaborators (the sklearn `TfidfVectorizer` transform
and the standard-library `json.loads`) are uninterpreted functions carried in
the service state; everything written in the repository itself is translated
clause by clause.
-/

/-- Python strings, modelled as lists of characters. -/
abbrev Str := List Char

namespace PolicyParser

/-- `leadsWith pat s` : `pat` is an initial segment of `s`
(Python `s.startswith(pat)` at the current scan position). -/
def leadsWith : Str → Str → Bool
  | [], _ => true
  | _ :: _, [] => false
  | a :: as, b :: bs => a == b && leadsWith as bs

/-- `containsSub sub s` : `sub` occurs contiguously in `s` (Python `sub in s`). -/
def containsSub (sub : Str) : Str → Bool
  | [] => leadsWith sub []
  | s@(_ :: rest) => leadsWith sub s || containsSub sub rest

/-- Characters matched by Python's `\s` (and stripped by `str.strip()`),
restricted to the ASCII whitespace class the repository's texts use. -/
def pyIsSpace (c : Char) : Bool :=
  c == ' ' || c == '\t' || c == '\n' || c == '\r' || c == '\x0b' || c == '\x0c'

/-- Python `str.strip()`: drop leading and trailing whitespace. -/
def pyStrip (s : Str) : Str :=
  ((s.dropWhile pyIsSpace).reverse.dropWhile pyIsSpace).reverse

/-- Python `str.lower()`, character by character (exact on the ASCII texts
this code handles). -/
def pyLower (s : Str) : Str := s.map Char.toLower

/-!
## Chunking Engine — `chunk_policy_json` (`scripts/store_policy_chunks.py`)

`policy_data` is a Python dict.  The values the function ever inspects are
either `None`, a scalar rendered by `f"{key}: {value}"`, or (under the key
`'coverage_details'`) a list of dicts.  We model a dict entry's value
accordingly; a scalar carries its `str()` rendering.
-/

/-- One coverage-detail dict: keys paired with `None` (`Option.none`) or the
`str()` rendering of the value. -/
abbrev Coverage := List (Str × Option Str)

/-- A value stored in the `policy_data` dict. -/
inductive PyObj where
  /-- Python `None`. -/
  | none
  /-- Any non-`None` scalar; `repr` is its `str()` rendering.  For the
  `'raw_text'` key the scalar is the raw string itself. -/
  | scalar (repr : Str)
  /-- A list of coverage-detail dicts (the `'coverage_details'` value);
  `repr` is the list's `str()` rendering, used only if such a value sits
  under a key that is not excluded from the `policy_details` chunk. -/
  | covList (covs : List Coverage) (repr : Str)

/-- The `policy_data` dict: keys with values, in insertion order. -/
structure PolicyData where
  items : List (Str × PyObj)

/-- Keys excluded from the `policy_details` chunk
(`store_policy_chunks.py:42`). -/
def excludedKeys : List Str :=
  ["coverage_details".toList, "raw_text".toList, "text".toList,
   "content".toList, "document_text".toList, "full_text".toList]

/-- Dict lookup (`policy_data.get(key)`): first entry with the key. -/
def PolicyData.lookup (pd : PolicyData) (k : Str) : Option PyObj :=
  (pd.items.find? (fun e => e.1 == k)).map (·.2)

/-- `policy_data.get('coverage_details')`, coerced through Python truthiness:
absent, `None`, or an empty list all give nothing to iterate. -/
def PolicyData.coverages (pd : PolicyData) : List Coverage :=
  match pd.lookup "coverage_details".toList with
  | some (.covList cs _) => cs
  | _ => []

/-- `policy_data.get('raw_text', '')`, with `None` collapsing to `''`
(a `None` value fails the `if raw_text:` truthiness test exactly like `''`). -/
def PolicyData.rawText (pd : PolicyData) : Str :=
  match pd.lookup "raw_text".toList with
  | some (.scalar r) => r
  | _ => []

/-- One chunk record as produced by `chunk_policy_json`
(`store_policy_chunks.py:31`). -/
structure ChunkRec where
  policy_id : ℤ
  document_source_filename : Str
  section_type : Str
  chunk_text : Str
  deriving DecidableEq

/-- The `"key: value"` lines of the `policy_details` chunk
(`store_policy_chunks.py:40-44`): every non-excluded, non-`None` entry. -/
def policyDetailLines (pd : PolicyData) : List Str :=
  pd.items.filterMap fun e =>
    if e.1 ∈ excludedKeys then Option.none
    else match e.2 with
      | .scalar r => some (e.1 ++ ": ".toList ++ r)
      | .covList _ r => some (e.1 ++ ": ".toList ++ r)
      | .none => Option.none

/-- The `"key: value"` lines of one coverage chunk
(`store_policy_chunks.py:56-59`). -/
def coverageLines (cov : Coverage) : List Str :=
  cov.filterMap fun e => e.2.map (fun r => e.1 ++ ": ".toList ++ r)

/-- `"\n".join(lines)`. -/
def joinLines (lines : List Str) : Str :=
  match lines with
  | [] => []
  | l :: ls => ls.foldl (fun acc x => acc ++ '\n' :: x) l

/-- Fuel-driven core of the raw-text splitter: take 1000 characters at a
time.  The fuel bounds the recursion; `rawTextSegments` supplies `l.length`,
which always suffices. -/
def segGo : ℕ → Str → List Str
  | 0, _ => []
  | _ + 1, [] => []
  | fuel + 1, l => l.take 1000 :: segGo fuel (l.drop 1000)

/-- The raw-text splitting loop `for i in range(0, len(raw_text), 1000)`
(`store_policy_chunks.py:71-79`): successive 1000-character slices. -/
def rawTextSegments (l : Str) : List Str := segGo l.length l

/-- The `coverage_<n>` section label, `n` the 1-based position of the entry
in the source `coverage_details` array (`f"coverage_{i+1}"`). -/
def coverageLabel (n : ℕ) : Str := "coverage_".toList ++ (toString n).toList

/-- `chunk_policy_json` (`scripts/store_policy_chunks.py:26-81`): the
`policy_details` chunk if any line survives, then one chunk per
coverage-detail entry with usable text, then the raw-text slices — each
raw-text chunk carrying the constant section label `"raw_text"`. -/
def chunkPolicyJson (pd : PolicyData) (policy_id : ℤ) (source_filename : Str) :
    List ChunkRec :=
  (if policyDetailLines pd ≠ [] then
    [⟨policy_id, source_filename, "policy_details".toList,
      joinLines (policyDetailLines pd)⟩]
   else []) ++
  (pd.coverages.enum.filterMap fun ic =>
    if coverageLines ic.2 ≠ [] then
      some ⟨policy_id, source_filename, coverageLabel (ic.1 + 1),
            joinLines (coverageLines ic.2)⟩
    else Option.none) ++
  (rawTextSegments pd.rawText).map fun seg =>
    ⟨policy_id, source_filename, "raw_text".toList, seg⟩

/-! Basic facts about the raw-text splitter. -/

theorem segGo_nil (fuel : ℕ) : segGo fuel ([] : Str) = [] := by
  cases fuel <;> rfl

theorem segGo_join (fuel : ℕ) (l : Str) (h : l.length ≤ fuel) :
    (segGo fuel l).foldr (· ++ ·) [] = l := by
  induction fuel generalizing l with
  | zero =>
    have hl : l = [] := List.length_eq_zero.mp (Nat.le_zero.mp h)
    subst hl; simp [segGo]
  | succ n ih =>
    match l with
    | [] => simp [segGo]
    | c :: cs =>
      have hlen : (List.drop 1000 (c :: cs)).length ≤ n := by
        rw [List.length_drop]
        omega
      simp only [segGo, List.foldr_cons, ih _ hlen]
      exact List.take_append_drop 1000 (c :: cs)

/-- Concatenating the raw-text segments in order reconstructs the input. -/
theorem rawTextSegments_join (l : Str) :
    (rawTextSegments l).foldr (· ++ ·) [] = l :=
  segGo_join l.length l le_rfl

/-- Segment lengths: every segment has exactly 1000 characters except the
last, which has `1 ≤ len ≤ 1000`. -/
theorem segGo_lengths (fuel : ℕ) (l : Str) (h : l.length ≤ fuel) (hne : l ≠ []) :
    ∃ k r, 0 < r ∧ r ≤ 1000 ∧
      (segGo fuel l).map List.length =
        List.replicate k 1000 ++ [r] ∧ l.length = 1000 * k + r := by
  induction fuel generalizing l with
  | zero =>
    exact absurd (List.length_eq_zero.mp (Nat.le_zero.mp h)) hne
  | succ n ih =>
    match l, hne with
    | c :: cs, _ =>
      by_cases hsmall : (c :: cs).length ≤ 1000
      · refine ⟨0, (c :: cs).length, by simp, hsmall, ?_, by omega⟩
        have hdrop : List.drop 1000 (c :: cs) = [] :=
          List.drop_eq_nil_of_le hsmall
        have htake : List.take 1000 (c :: cs) = c :: cs :=
          List.take_of_length_le hsmall
        simp [segGo, hdrop, htake, segGo_nil]
      · push_neg at hsmall
        have hlen : (List.drop 1000 (c :: cs)).length ≤ n := by
          rw [List.length_drop]; omega
        have hdne : List.drop 1000 (c :: cs) ≠ [] := by
          intro hcon
          have hc := congrArg List.length hcon
          rw [List.length_drop] at hc
          simp only [List.length_nil] at hc
          omega
        obtain ⟨k, r, hr0, hr1000, hmap, hsum⟩ := ih _ hlen hdne
        have hdl : (List.drop 1000 (c :: cs)).length = (c :: cs).length - 1000 :=
          List.length_drop 1000 (c :: cs)
        refine ⟨k + 1, r, hr0, hr1000, ?_, by omega⟩
        have htake : (List.take 1000 (c :: cs)).length = 1000 := by
          rw [List.length_take]; omega
        simp only [segGo, List.map_cons, htake, hmap, List.replicate_succ,
          List.cons_append]

/-- A raw text of exactly 2500 characters is split into segments of lengths
1000, 1000 and 500. -/
theorem rawTextSegments_lengths_2500 (l : Str) (h : l.length = 2500) :
    (rawTextSegments l).map List.length = [1000, 1000, 500] := by
  have hne : l ≠ [] := by
    intro hc; rw [hc] at h; simp at h
  obtain ⟨k, r, hr0, hr1000, hmap, hsum⟩ :=
    segGo_lengths l.length l le_rfl hne
  rw [h] at hsum
  have hk : k = 2 := by omega
  have hr : r = 500 := by omega
  rw [rawTextSegments, hmap, hk, hr]
  rfl

/-- The section label of every coverage chunk starts with `'c'`, so it is
never the raw-text label. -/
theorem coverageLabel_ne_raw (n : ℕ) : coverageLabel n ≠ "raw_text".toList := by
  intro h
  have h1 : (coverageLabel n).head? = some 'c' := rfl
  rw [h] at h1
  exact absurd h1 (by decide)

/-- The chunks of `chunk_policy_json` carrying the `"raw_text"` section label
are exactly the raw-text segments, in order. -/
theorem chunkPolicyJson_rawChunks (pd : PolicyData) (pid : ℤ) (fn : Str) :
    (chunkPolicyJson pd pid fn).filter
        (fun c => c.section_type == "raw_text".toList) =
      (rawTextSegments pd.rawText).map
        (fun seg => ⟨pid, fn, "raw_text".toList, seg⟩) := by
  unfold chunkPolicyJson
  rw [List.filter_append, List.filter_append]
  have h1 : (if policyDetailLines pd ≠ [] then
      [(⟨pid, fn, "policy_details".toList,
        joinLines (policyDetailLines pd)⟩ : ChunkRec)] else []).filter
        (fun c => c.section_type == "raw_text".toList) = [] := by
    split <;> simp
  have h2 : (pd.coverages.enum.filterMap fun ic =>
      if coverageLines ic.2 ≠ [] then
        some (⟨pid, fn, coverageLabel (ic.1 + 1),
              joinLines (coverageLines ic.2)⟩ : ChunkRec)
      else Option.none).filter
        (fun c => c.section_type == "raw_text".toList) = [] := by
    rw [List.filter_eq_nil_iff]
    intro a ha
    rw [List.mem_filterMap] at ha
    obtain ⟨ic, _, hic⟩ := ha
    by_cases hc : coverageLines ic.2 ≠ [] <;> simp [hc] at hic
    rw [← hic]
    simpa using coverageLabel_ne_raw (ic.1 + 1)
  have h3 : ((rawTextSegments pd.rawText).map
      (fun seg => (⟨pid, fn, "raw_text".toList, seg⟩ : ChunkRec))).filter
        (fun c => c.section_type == "raw_text".toList) =
      (rawTextSegments pd.rawText).map
        (fun seg => ⟨pid, fn, "raw_text".toList, seg⟩) := by
    rw [List.filter_eq_self]
    intro a ha
    rw [List.mem_map] at ha
    obtain ⟨seg, _, hseg⟩ := ha
    rw [← hseg]
    simp
  rw [h1, h2, h3]
  rfl

/-- Modelled from the spec's words (§4.1): the claimed section labels —
`policy_details`, then `coverage_<k>` with `k` the 1-based running count of
emitted coverage chunks (skipped entries' indices reused by the next emitted
chunk), then `raw_text_<emitted-order-index>` with a 0-based index over the
emitted raw-text chunks. -/
def claimedSectionLabels (pd : PolicyData) : List Str :=
  (if policyDetailLines pd ≠ [] then ["policy_details".toList] else []) ++
  ((pd.coverages.filter fun cov => coverageLines cov ≠ []).enum.map
    fun ic => coverageLabel (ic.1 + 1)) ++
  ((rawTextSegments pd.rawText).enum.map
    fun iseg => "raw_text_".toList ++ (toString iseg.1).toList)

/-- The section labels `chunk_policy_json` actually emits: coverage chunks
are numbered by their 1-based position in the source `coverage_details`
array (an entry that is skipped leaves a gap in the numbering), and every
raw-text chunk carries the constant label `"raw_text"`. -/
def amendedSectionLabels (pd : PolicyData) : List Str :=
  (if policyDetailLines pd ≠ [] then ["policy_details".toList] else []) ++
  (pd.coverages.enum.filterMap fun ic =>
    if coverageLines ic.2 ≠ [] then some (coverageLabel (ic.1 + 1))
    else Option.none) ++
  List.replicate (rawTextSegments pd.rawText).length "raw_text".toList

/-!
## Embedding Store and Retrieval Engine — `app/services/vector_service.py`

Stored-chunk embeddings and the query embedding are exact rationals.  The
sklearn `TfidfVectorizer` (vocabulary fitting and `transform`) and the
standard-library `json.loads` are external collaborators: they appear as
uninterpreted functions in the service state.  `np.linalg.norm(v) < 1e-10`
is rendered exactly as `sqnorm v < (1e-10)²`, and the cosine similarity
`np.dot(q/|q|, c/|c|)` is carried in square-root-free form as the triple
`(q·c, |c|², |q|²)`; its real value is `SimKey.val`.
-/

/-- A stored `policy_chunks` row (`app/models.py:41-51`). -/
structure PolicyChunk where
  policy_id : ℤ
  document_source_filename : Str
  section_type : Str
  chunk_text : Str
  embedding : List ℚ
  deriving DecidableEq

/-- A parsed JSON value as `json.loads` returns it.  `repr` fields carry the
`str()` rendering Python would produce for the value, since these values
come from the uninterpreted `json.loads` anyway. -/
inductive PyVal where
  | null
  | bool (b : Bool)
  | str (s : Str)
  | num (q : ℚ) (repr : Str)
  | dict (items : List (Str × PyVal)) (repr : Str)
  | list (elems : List PyVal) (repr : Str)

/-- Python `f"{v}"` rendering of a parsed JSON value. -/
def pyRepr : PyVal → Str
  | .null => "None".toList
  | .bool true => "True".toList
  | .bool false => "False".toList
  | .str s => s
  | .num _ r => r
  | .dict _ r => r
  | .list _ r => r

/-- Python dict lookup on a parsed JSON object. -/
def dictLookup (items : List (Str × PyVal)) (k : Str) : Option PyVal :=
  (items.find? (fun e => e.1 == k)).map (·.2)

/-- The `VectorService` state: the repository's own fields together with
the external collaborators as uninterpreted functions.

`vocab_size` is `Option ℕ` because the Python attribute `self.vocab_size`
may be *unset*: `_fit_vectorizer` (`vector_service.py:31-45`) assigns it
only when the chunk table is non-empty (or, in its `except` branch, as the
default 1000), so a service initialized over an empty table has no such
attribute and reading it raises `AttributeError`.  `Option.none` is the
unset attribute.

* `rawEmbed` — `self.vectorizer.transform([text]).toarray()[0].tolist()`;
* `bootstrapSize` — `len(vocabulary_)` after the bootstrap
  `self.vectorizer.fit([text])` (`vector_service.py:56-58`);
* `jsonLoads` — `json.loads`, `Option.none` on `JSONDecodeError`. -/
structure VectorService where
  vocab_size : Option ℕ
  fitted : Bool
  bootstrapSize : Str → ℕ
  rawEmbed : Str → List ℚ
  jsonLoads : Str → Option PyVal
  chunks : List PolicyChunk

/-- What the external sklearn fit in `_fit_vectorizer` did: succeeded with
a vocabulary of `vocabSize` terms, or raised (also covers a failing table
query — both land in the `except` branch). -/
inductive FitOutcome where
  | ok (vocabSize : ℕ)
  | raises

/-- `VectorService.__init__` / `_fit_vectorizer` (`vector_service.py:15-45`):
on a non-empty chunk table a successful fit sets `vocab_size` and leaves the
vectorizer fitted; any exception is caught and sets the default 1000; an
empty table takes neither path, so `self.vocab_size` is **never assigned**
(`Option.none`) and the vectorizer stays unfitted. -/
def initVectorService (chunks : List PolicyChunk) (fit : FitOutcome)
    (bootstrapSize : Str → ℕ) (rawEmbed : Str → List ℚ)
    (jsonLoads : Str → Option PyVal) : VectorService :=
  match fit with
  | .raises => ⟨some 1000, false, bootstrapSize, rawEmbed, jsonLoads, chunks⟩
  | .ok n =>
    if chunks.isEmpty then
      ⟨Option.none, false, bootstrapSize, rawEmbed, jsonLoads, chunks⟩
    else ⟨some n, true, bootstrapSize, rawEmbed, jsonLoads, chunks⟩

/-- The uncaught exception reading the unset attribute raises
(`AttributeError`), which `get_text_embedding`'s handler logs and
re-raises (`vector_service.py:81-83`). -/
def attributeErrorMsg : Str := "AttributeError: vocab_size".toList

/-- Argument to `get_text_embedding`: a Python string, or a non-string
value (which fails the `isinstance(text, str)` guard). -/
inductive PyInput where
  | str (s : Str)
  | nonStr

/-- The `1e-10` added component-wise to an all-zero embedding
(`vector_service.py:78`). -/
def embedEps : ℚ := 1 / 10 ^ 10

/-- The square of the `1e-10` zero-norm cutoff: `np.linalg.norm(v) < 1e-10`
iff `sqnorm v < epsNormSq`, since both sides are nonnegative. -/
def epsNormSq : ℚ := 1 / 10 ^ 20

/-- Squared Euclidean norm. -/
def sqnorm (l : List ℚ) : ℚ := (l.map fun x => x * x).sum

/-- Dot product (`np.dot` on equal-length vectors). -/
def dotp (a b : List ℚ) : ℚ := (List.zipWith (· * ·) a b).sum

/-- Pad with zeros or truncate to the current vocabulary size — the
dimension-reconciliation step used both on freshly computed embeddings
(`vector_service.py:66-72`) and on stored chunk embeddings at read time
(`vector_service.py:188-194`). -/
def reconcile (n : ℕ) (e : List ℚ) : List ℚ :=
  if e.length = n then e
  else if e.length < n then e ++ List.replicate (n - e.length) 0
  else e.take n

/-- `get_text_embedding` (`vector_service.py:47-83`).  On success, returns
the embedding together with the (possibly bootstrap-fitted) service state;
every read of `self.vocab_size` while the attribute is unset raises
`AttributeError`, which the function's own handler re-raises
(`Except.error`).  The empty/non-string guard reads the attribute
(`return [0.0] * self.vocab_size`), so `embed("")` itself raises in the
unset state; the non-empty path reads it only after the bootstrap branch
has assigned it when the vectorizer was unfitted. -/
def getTextEmbedding (vs : VectorService) (input : PyInput) :
    Except Str (List ℚ × VectorService) :=
  match input with
  | .nonStr =>
    match vs.vocab_size with
    | some n => .ok (List.replicate n 0, vs)
    | Option.none => .error attributeErrorMsg
  | .str s =>
    if s = [] then
      match vs.vocab_size with
      | some n => .ok (List.replicate n 0, vs)
      | Option.none => .error attributeErrorMsg
    else
      let vs' := if vs.fitted then vs
        else { vs with fitted := true,
                       vocab_size := some (vs.bootstrapSize s) }
      match vs'.vocab_size with
      | some n =>
        let e := reconcile n (vs'.rawEmbed s)
        .ok (if e.all (· == 0) then e.map (· + embedEps) else e, vs')
      | Option.none => .error attributeErrorMsg

/-- One entry of the `filters` dict passed to `search_similar_chunks`;
the keys in use are the filterable `PolicyChunk` columns. -/
inductive DBFilter where
  | policyId (v : ℤ)
  | sectionType (v : Str)
  | docFilename (v : Str)
  deriving DecidableEq

/-- `getattr(PolicyChunk, key) == value` for one filter entry. -/
def chunkMatches (c : PolicyChunk) : DBFilter → Bool
  | .policyId v => c.policy_id == v
  | .sectionType v => c.section_type == v
  | .docFilename v => c.document_source_filename == v

/-- `filters['policy_id']` when `'policy_id' in filters`. -/
def lookupPolicyIdFilter (fs : List DBFilter) : Option ℤ :=
  fs.findSome? fun f =>
    match f with
    | .policyId v => some v
    | _ => Option.none

/-- The square-root-free similarity record for one scored chunk:
`d = q·c`, `csq = |c|²`, `qsq = |q|²` for the reconciled embeddings;
the float the code sorts on is `d / (√qsq · √csq)`. -/
structure SimKey where
  d : ℚ
  csq : ℚ
  qsq : ℚ
  deriving DecidableEq

/-- The real value of the similarity score. -/
noncomputable def SimKey.val (k : SimKey) : ℝ :=
  (k.d : ℝ) / (Real.sqrt (k.qsq : ℝ) * Real.sqrt (k.csq : ℝ))

/-- Exact comparison `val a ≥ val b`, by cross-multiplication with a sign
analysis (valid whenever both `csq` are positive and `qsq` agree). -/
def simGeq (a b : SimKey) : Bool :=
  if 0 ≤ a.d then
    if 0 ≤ b.d then decide (b.d ^ 2 * a.csq ≤ a.d ^ 2 * b.csq) else true
  else
    if 0 ≤ b.d then false
    else decide (a.d ^ 2 * b.csq ≤ b.d ^ 2 * a.csq)

/-- Insert `x` after every already-placed element whose key is `≥` its own —
the insertion step of a stable descending sort. -/
def insertDesc (geq : α → α → Bool) (x : α) : List α → List α
  | [] => [x]
  | y :: ys => if geq y x then y :: insertDesc geq x ys else x :: y :: ys

/-- Left fold of `insertDesc` over the input in its original order. -/
def sortDescGo (geq : α → α → Bool) : List α → List α → List α
  | acc, [] => acc
  | acc, x :: xs => sortDescGo geq (insertDesc geq x acc) xs

/-- The model of Python's `list.sort(key=lambda x: x[1], reverse=True)`:
a stable descending sort.  (Python's Timsort is stable, and for a total key
comparison every stable descending sort computes the same list, so insertion
sort in input order is an exact model.) -/
def sortDesc (geq : α → α → Bool) (l : List α) : List α := sortDescGo geq [] l

/-- Key comparison on scored `(chunk, key)` pairs. -/
def simPairGeq (a b : PolicyChunk × SimKey) : Bool := simGeq a.2 b.2

/-- Two keys stand for equal similarity scores (ties in the sort). -/
def sameScore (a b : SimKey) : Bool := simGeq a b && simGeq b a

/-!
### The per-chunk answer-extraction step (`vector_service.py:218-348`)

The fixed patterns are of two shapes: `label:\s*([^\n]+)` and the bracketed
`label:\s*({[^}]+})` / `label:\s*(\[[^\]]+\])` (with `re.DOTALL`, which the
explicit character classes make irrelevant).  `re.search` tries every start
position left to right; since each pattern opens with a literal, that is a
scan over the literal's occurrences.  `\s*` is greedy but backtracks, so
`\s*([^\n]+)` captures from the end of the whitespace run — or, when the
whole remainder is whitespace, from its last non-newline character. -/

/-- Everything up to (excluding) the next newline: a greedy `[^\n]+`. -/
def takeLine (s : Str) : Str := s.takeWhile (· ≠ '\n')

/-- Match `\s*([^\n]+)` at the start of `rest`, returning the capture. -/
def findCaptureWS (rest : Str) : Option Str :=
  let w := (rest.takeWhile pyIsSpace).length
  if w < rest.length then some (takeLine (rest.drop w))
  else
    match rest.reverse.dropWhile (· == '\n') with
    | [] => Option.none
    | c :: _ => some [c]

/-- Match `\s*(o[^c]+c)` at the start of `rest` for bracket characters
`o`/`c`, returning the capture including the brackets. -/
def findCaptureBracket (openC closeC : Char) (rest : Str) : Option Str :=
  let w := (rest.takeWhile pyIsSpace).length
  match rest.drop w with
  | [] => Option.none
  | c :: tail =>
    if c == openC then
      let body := tail.takeWhile (· ≠ closeC)
      if body ≠ [] ∧ body.length < tail.length then
        some (openC :: (body ++ [closeC]))
      else Option.none
    else Option.none

/-- `re.search` for a pattern opening with the literal `pat`: try each
occurrence of `pat` left to right, completing the match with `capture`. -/
def regexScanGo (pat : Str) (capture : Str → Option Str) : Str → Option Str
  | [] => Option.none
  | s@(_ :: rest) =>
    if leadsWith pat s then
      match capture (s.drop pat.length) with
      | some cap => some cap
      | Option.none => regexScanGo pat capture rest
    else regexScanGo pat capture rest

/-- `re.search(r'<label>:\s*([^\n]+)', txt)`, first capture group. -/
def regexLabel (label : Str) (txt : Str) : Option Str :=
  regexScanGo (label ++ [':']) findCaptureWS txt

/-- `re.search(r'<label>:\s*(o[^c]+c)', txt)`, first capture group. -/
def regexBracket (label : Str) (openC closeC : Char) (txt : Str) : Option Str :=
  regexScanGo (label ++ [':']) (findCaptureBracket openC closeC) txt

/-- `coverage_json.replace("'", '"')`. -/
def replaceQuote (s : Str) : Str :=
  s.map fun c => if c = '\'' then '"' else c

/-- Python `\w` (ASCII part). -/
def isWordChar (c : Char) : Bool := c.isAlphanum || c == '_'

/-- Scanner for `re.sub(r'(\w+):', r'"\1":', s)`: `run` holds the current
word-character run, reversed. -/
def quoteKeysGo (run : Str) : Str → Str
  | [] => run.reverse
  | c :: rest =>
    if isWordChar c then quoteKeysGo (c :: run) rest
    else if c == ':' && !run.isEmpty then
      ('"' :: (run.reverse ++ ['"', ':'])) ++ quoteKeysGo [] rest
    else (run.reverse ++ [c]) ++ quoteKeysGo [] rest

/-- The two-step JSON cleanup applied before `json.loads`
(`vector_service.py:276-278` and `:304-306`). -/
def jsonCleanup (s : Str) : Str := quoteKeysGo [] (replaceQuote s)

/-- The structured part of the `"coverage limits"` branch working on parsed
JSON (`vector_service.py:271-290`): the accumulated lines and the updated
`seen_coverage_types` set. -/
def coverageJsonExtract (js : Str → Option PyVal) (txt : Str)
    (seen : List Str) : List Str × List Str :=
  match regexBracket "coverage_details".toList '{' '}' txt with
  | some cap =>
    match js (jsonCleanup cap) with
    | some (.dict items _) =>
      items.foldl
        (fun acc kv =>
          match kv.2 with
          | .dict dits _ =>
            match dictLookup dits "limit".toList with
            | some lim =>
              if acc.2.contains kv.1 then acc
              else (acc.1 ++ [kv.1 ++ ": $".toList ++ pyRepr lim],
                    acc.2 ++ [kv.1])
            | Option.none => acc
          | _ => acc)
        (([] : List Str), seen)
    | _ => ([], seen)
  | Option.none => ([], seen)

/-- The `"coverage limits"` branch (`vector_service.py:253-293`): the
per-section `coverage_type:`/`limit:` pass, then the JSON pass, threading
the `seen_coverage_types` set. -/
def coverageExtract (js : Str → Option PyVal) (txt : Str) (seen : List Str) :
    List Str × List Str :=
  let first :=
    if containsSub "coverage_type:".toList (pyLower txt) &&
       containsSub "limit:".toList (pyLower txt) then
      match regexLabel "coverage_type".toList txt,
            regexLabel "limit".toList txt with
      | some ctg, some lmg =>
        let ct := pyStrip ctg
        let lim := pyStrip lmg
        if seen.contains ct then (([] : List Str), seen)
        else ([ct ++ ": $".toList ++ lim], seen ++ [ct])
      | _, _ => ([], seen)
    else ([], seen)
  let second := coverageJsonExtract js txt first.2
  (first.1 ++ second.1, second.2)

/-- The `"deductibles"` branch (`vector_service.py:295-320`). -/
def deductiblesExtract (js : Str → Option PyVal) (txt : Str) : List Str :=
  match regexBracket "deductibles".toList '[' ']' txt with
  | some cap =>
    match js (jsonCleanup cap) with
    | some (.list elems _) =>
      elems.filterMap fun e =>
        match e with
        | .dict dits _ =>
          let ct := (dictLookup dits "coverage_type".toList).getD
            (.str "Unknown".toList)
          let am := (dictLookup dits "amount".toList).getD
            (.str "Unknown".toList)
          let ty := (dictLookup dits "type".toList).getD
            (.str "Unknown".toList)
          some (pyRepr ct ++ ": $".toList ++ pyRepr am ++ " (".toList ++
                pyRepr ty ++ [')'])
        | _ => Option.none
    | _ => []
  | Option.none => []

/-- The intent dispatch and field extraction for one retrieved chunk
(`vector_service.py:228-338`): the extracted info (`Option.none` when no
intent matches or the pattern fails) and the updated
`seen_coverage_types` set. -/
def extractInfo (js : Str → Option PyVal) (ql txt : Str) (seen : List Str) :
    Option Str × List Str :=
  if containsSub "who is the insured".toList ql ||
     containsSub "policyholder".toList ql then
    ((regexLabel "policyholder_name".toList txt).map pyStrip, seen)
  else if containsSub "policy number".toList ql then
    ((regexLabel "policy_number".toList txt).map pyStrip, seen)
  else if containsSub "total premium".toList ql then
    ((regexLabel "total_premium".toList txt).map fun g =>
      let p := pyStrip g
      if leadsWith "$".toList p then p else '$' :: p, seen)
  else if containsSub "coverage limits".toList ql then
    let r := coverageExtract js txt seen
    ((if r.1 ≠ [] then some (joinLines r.1) else Option.none), r.2)
  else if containsSub "deductibles".toList ql then
    let ds := deductiblesExtract js txt
    ((if ds ≠ [] then some (joinLines ds) else Option.none), seen)
  else if containsSub "effective date".toList ql then
    ((regexLabel "effective_date".toList txt).map pyStrip, seen)
  else if containsSub "property address".toList ql then
    ((regexLabel "property_address".toList txt).map pyStrip, seen)
  else if containsSub "insurer name".toList ql then
    ((regexLabel "insurer_name".toList txt).map pyStrip, seen)
  else (Option.none, seen)

/-- True when the lowered query contains one of the recognized intent
phrases — exactly the guard disjunction of `extractInfo`. -/
def recognizedIntent (ql : Str) : Bool :=
  containsSub "who is the insured".toList ql ||
  containsSub "policyholder".toList ql ||
  containsSub "policy number".toList ql ||
  containsSub "total premium".toList ql ||
  containsSub "coverage limits".toList ql ||
  containsSub "deductibles".toList ql ||
  containsSub "effective date".toList ql ||
  containsSub "property address".toList ql ||
  containsSub "insurer name".toList ql

/-- One entry of the list `search_similar_chunks` returns
(`vector_service.py:342-348`); `chunk_text` holds the extracted info, and
`simKey` the exact form of the reported `similarity` float. -/
structure SearchResult where
  policy_id : ℤ
  section_type : Str
  document_source_filename : Str
  chunk_text : Str
  simKey : SimKey
  deriving DecidableEq

/-- The result-building loop over the ranked top chunks
(`vector_service.py:225-348`): a result entry is appended only when the
extracted info is a non-empty string (Python truthiness). -/
def extractResults (js : Str → Option PyVal) (ql : Str) :
    List Str → List (PolicyChunk × SimKey) → List SearchResult
  | _, [] => []
  | seen, (c, k) :: rest =>
    let r := extractInfo js ql c.chunk_text seen
    match r.1 with
    | some s =>
      if s ≠ [] then
        ⟨c.policy_id, c.section_type, c.document_source_filename, s, k⟩ ::
          extractResults js ql r.2 rest
      else extractResults js ql r.2 rest
    | Option.none => extractResults js ql r.2 rest

/-- The rows the SQL-level filters select
(`chunks = db_query.all()`, `vector_service.py:176-180`). -/
def dbFilteredChunks (vs : VectorService) (filters : List DBFilter) :
    List PolicyChunk :=
  if filters.isEmpty then vs.chunks
  else vs.chunks.filter fun c => filters.all (chunkMatches c)

/-- The scoring loop (`vector_service.py:182-212`): per selected chunk,
reconcile the embedding dimension, skip effectively-zero-norm chunks,
compute the similarity, and skip any chunk failing the redundant
`policy_id` double-check.  `n` is the value of the `self.vocab_size`
attribute the loop reads; `search` enters the loop only in a state where
the attribute is set. -/
def scoredCandidates (n : ℕ) (vs : VectorService) (qe : List ℚ)
    (filters : List DBFilter) : List (PolicyChunk × SimKey) :=
  (dbFilteredChunks vs filters).filterMap fun c =>
    let ce := reconcile n c.embedding
    let csq := sqnorm ce
    if csq < epsNormSq then Option.none
    else
      match lookupPolicyIdFilter filters with
      | some v =>
        if c.policy_id ≠ v then Option.none
        else some (c, ⟨dotp qe ce, csq, sqnorm qe⟩)
      | Option.none => some (c, ⟨dotp qe ce, csq, sqnorm qe⟩)

/-- The scored candidates after the descending stable sort
(`similarities.sort(key=lambda x: x[1], reverse=True)`). -/
def rankedCandidates (n : ℕ) (vs : VectorService) (qe : List ℚ)
    (filters : List DBFilter) : List (PolicyChunk × SimKey) :=
  sortDesc simPairGeq (scoredCandidates n vs qe filters)

/-- `top_results = similarities[:top_k]`. -/
def topRanked (n : ℕ) (vs : VectorService) (qe : List ℚ) (top_k : ℕ)
    (filters : List DBFilter) : List (PolicyChunk × SimKey) :=
  (rankedCandidates n vs qe filters).take top_k

/-- `search_similar_chunks` (`vector_service.py:159-354`).  On success,
returns the result list together with the final service state (the
function reads the chunk table and never writes it); an exception raised
by `get_text_embedding` — or by the loop's read of an unset
`self.vocab_size` attribute, which happens only if the loop has at least
one chunk to score — is logged by the function's own handler and re-raised
(`Except.error`). -/
def searchSimilarChunks (vs : VectorService) (query : Str) (top_k : ℕ)
    (filters : List DBFilter) :
    Except Str (List SearchResult × VectorService) :=
  match getTextEmbedding vs (.str query) with
  | .error m => .error m
  | .ok e =>
    if sqnorm e.1 < epsNormSq then .ok ([], e.2)
    else
      match e.2.vocab_size with
      | some n =>
        .ok (extractResults e.2.jsonLoads (pyLower query) []
          (topRanked n e.2 e.1 top_k filters), e.2)
      | Option.none =>
        if (dbFilteredChunks e.2 filters).isEmpty then .ok ([], e.2)
        else .error attributeErrorMsg

/-!
## Pipeline Orchestrator — `pipeline_tasks.py`

Per item, the loop body of a stage either returns a collaborator result or
raises; the `try/except` inside the loop turns either failure into that
item's error entry and continues.  We model an item's externally determined
outcome as data and the loop as an explicit accumulator recursion.
-/

/-- One entry of a stage's `results` list (`pipeline_tasks.py:58-85`):
`status_success` models `status == 'success'`; an absent `policy_number`
key is `Option.none`.  The success entries' opaque `data` payload (the
structured fields dict) is omitted: no modeled consumer reads it. -/
structure ItemResult where
  file_path : Str
  status_success : Bool
  policy_number : Option Str
  error : Option Str
  deriving DecidableEq

/-- A stage's return value: `{'status': 'error', 'error': msg}` or
`{'status': 'success', 'results': …, 'successful_count': …,
'total_count': …}`. -/
inductive StepResult where
  | errorResult (msg : Str)
  | successResult (results : List ItemResult)
      (successful_count total_count : ℕ)
  deriving DecidableEq

/-- The externally determined fate of one document in
`process_documents_step`: the processor succeeded (with the value of
`result['data'].get('policy_number')`), returned an error message, or the
body raised (file read or processor exception). -/
inductive DocOutcome where
  | succeeds (policy_number : Option Str)
  | fails (msg : Str)
  | raises (msg : Str)
  deriving DecidableEq

/-- One input file with its processing fate. -/
structure FileInput where
  path : Str
  outcome : DocOutcome
  deriving DecidableEq

/-- The entry appended for one file (`pipeline_tasks.py:57-85`): a raised
exception is caught and recorded exactly like a collaborator error. -/
def docItemResult (f : FileInput) : ItemResult :=
  match f.outcome with
  | .succeeds pn => ⟨f.path, true, pn, Option.none⟩
  | .fails m => ⟨f.path, false, Option.none, some m⟩
  | .raises m => ⟨f.path, false, Option.none, some m⟩

/-- The per-item loop (`pipeline_tasks.py:46-85`): append this item's entry
and continue with the next item. -/
def docLoop (acc : List ItemResult) : List FileInput → List ItemResult
  | [] => acc
  | f :: rest => docLoop (acc ++ [docItemResult f]) rest

/-- `process_documents_step` (`pipeline_tasks.py:31-99`).  `initError` is
`some msg` when the stage-level `try` fails before the loop (the processing
service cannot be constructed at all). -/
def processDocumentsStep (initError : Option Str) (files : List FileInput) :
    StepResult :=
  match initError with
  | some m => .errorResult m
  | Option.none =>
    let results := docLoop [] files
    .successResult results
      (results.filter (·.status_success)).length files.length

/-- One entry of `vector_processing_step`'s `results` list
(`pipeline_tasks.py:125-182`). -/
structure VecItemResult where
  policy_number : Str
  status_success : Bool
  chunks_count : Option ℕ
  error : Option Str
  deriving DecidableEq

/-- `vector_processing_step`'s return value. -/
inductive VecStepResult where
  | errorResult (msg : Str)
  | successResult (results : List VecItemResult)
      (successful_count total_count : ℕ)
  deriving DecidableEq

/-- The fate of one policy number in `vector_processing_step`: not found in
the database, processed successfully (with its chunk count), or the body
raised. -/
inductive VecOutcome where
  | notFound
  | succeeds (chunksCount : ℕ)
  | raises (msg : Str)
  deriving DecidableEq

/-- One input policy number with its fate. -/
structure VecInput where
  policy_number : Str
  outcome : VecOutcome
  deriving DecidableEq

/-- The entry appended for one policy number
(`pipeline_tasks.py:117-182`). -/
def vecItemResult (v : VecInput) : VecItemResult :=
  match v.outcome with
  | .notFound =>
    ⟨v.policy_number, false, Option.none,
     some "Policy not found in database".toList⟩
  | .succeeds n => ⟨v.policy_number, true, some n, Option.none⟩
  | .raises m => ⟨v.policy_number, false, Option.none, some m⟩

/-- The per-item loop of `vector_processing_step`. -/
def vecLoop (acc : List VecItemResult) : List VecInput → List VecItemResult
  | [] => acc
  | v :: rest => vecLoop (acc ++ [vecItemResult v]) rest

/-- `vector_processing_step` (`pipeline_tasks.py:101-196`). -/
def vectorProcessingStep (initError : Option Str) (items : List VecInput) :
    VecStepResult :=
  match initError with
  | some m => .errorResult m
  | Option.none =>
    let results := vecLoop [] items
    .successResult results
      (results.filter (·.status_success)).length items.length

/-- `r.get('policy_number')` is truthy: present and non-empty. -/
def pnTruthy (r : ItemResult) : Bool :=
  match r.policy_number with
  | some pn => !pn.isEmpty
  | Option.none => false

/-- `extract_policy_numbers_from_docs` (`pipeline_tasks.py:447-456`): on a
success result, the list comprehension keeps `r['policy_number']` for every
item with `status == 'success'` and a truthy policy number; otherwise `[]`.
In `run_chained_pipeline` (`pipeline_tasks.py:480-507`) this output is the
argument handed to `vector_processing_step`. -/
def extractPolicyNumbersFromDocs : StepResult → List Str
  | .errorResult _ => []
  | .successResult rs _ _ =>
    rs.filterMap fun r =>
      if r.status_success && pnTruthy r then r.policy_number else Option.none

/-!
## Task State Tracker — `ProcessingTask`

`app/models.py:77-92` declares the record (column defaults
`status='pending'`, `progress=0`); the synchronous `upload_policy` path
(`app/routes/api_adapter_routes.py:433-471`) creates the record exactly
once, passing `status`/`progress` explicitly, and never updates it again on
that path.  A task's lifetime on this path is therefore a one-element state
history.
-/

/-- The observable state of a `ProcessingTask` row. -/
structure TaskState where
  status : Str
  progress : ℤ
  error_message : Option Str
  deriving DecidableEq

/-- The column defaults of `ProcessingTask` (`app/models.py:84-87`). -/
def processingTaskDefault : TaskState :=
  ⟨"pending".toList, 0, Option.none⟩

/-- The record created by `upload_policy`
(`api_adapter_routes.py:435-443` on success, `:459-468` on failure). -/
def uploadPolicyTask (ok : Bool) (errMsg : Str) : TaskState :=
  if ok then ⟨"completed".toList, 100, Option.none⟩
  else ⟨"failed".toList, 0, some errMsg⟩

/-- The full state history of the task record on the synchronous upload
path: created once, never updated afterwards. -/
def uploadPolicyTaskHistory (ok : Bool) (errMsg : Str) : List TaskState :=
  [uploadPolicyTask ok errMsg]

/-- One step of the progression the spec claims. -/
def allowedStatusStep (a b : Str) : Bool :=
  (a == "pending".toList && b == "processing".toList) ||
  (a == "processing".toList &&
    (b == "completed".toList || b == "failed".toList))

/-- Adjacent pairs of the history all take allowed steps. -/
def statusChainOk : List Str → Bool
  | [] => true
  | [_] => true
  | a :: b :: rest => allowedStatusStep a b && statusChainOk (b :: rest)

/-- Modelled from the spec's words (§4.5 and the claim): the status history
follows the strict progression `pending → processing → {completed|failed}`,
starting at `pending`, and a task with more than zero items is never allowed
to skip `processing`. -/
def claimedTaskProgression (sts : List Str) (items : ℕ) : Prop :=
  statusChainOk sts = true ∧
  (∀ s ∈ sts.head?, s = "pending".toList) ∧
  (0 < items → "processing".toList ∈ sts)

/-!
## Lemmas: the stable descending sort
-/

theorem insertDesc_perm (geq : α → α → Bool) (x : α) :
    ∀ l : List α, (insertDesc geq x l).Perm (x :: l)
  | [] => List.Perm.refl _
  | y :: ys => by
    rw [insertDesc]
    split
    · exact ((insertDesc_perm geq x ys).cons y).trans (List.Perm.swap x y ys)
    · exact List.Perm.refl _

theorem sortDescGo_perm (geq : α → α → Bool) :
    ∀ (l acc : List α), (sortDescGo geq acc l).Perm (acc ++ l)
  | [], acc => by simp [sortDescGo]
  | x :: xs, acc => by
    rw [sortDescGo]
    refine (sortDescGo_perm geq xs _).trans ?_
    have h1 : (insertDesc geq x acc ++ xs).Perm ((x :: acc) ++ xs) :=
      (insertDesc_perm geq x acc).append_right xs
    have h2 : ((x :: acc) ++ xs).Perm (acc ++ x :: xs) := by
      simpa using List.perm_middle.symm
    exact h1.trans h2

theorem sortDesc_perm (geq : α → α → Bool) (l : List α) :
    (sortDesc geq l).Perm l :=
  sortDescGo_perm geq l []

theorem mem_sortDesc (geq : α → α → Bool) {l : List α} {a : α}
    (h : a ∈ sortDesc geq l) : a ∈ l :=
  (sortDesc_perm geq l).mem_iff.mp h

theorem insertDesc_pairwise (geq : α → α → Bool) (P : α → Prop)
    (htot : ∀ a b, ¬ geq a b = true → geq b a = true)
    (htrans : ∀ a b c, P a → P b → P c →
      geq a b = true → geq b c = true → geq a c = true)
    (x : α) (hx : P x) :
    ∀ acc : List α, (∀ a ∈ acc, P a) →
      acc.Pairwise (fun a b => geq a b = true) →
      (insertDesc geq x acc).Pairwise (fun a b => geq a b = true)
  | [], _, _ => by simp [insertDesc]
  | y :: ys, hP, hp => by
    rw [insertDesc]
    rw [List.pairwise_cons] at hp
    split
    · rename_i hyx
      rw [List.pairwise_cons]
      constructor
      · intro z hz
        rcases List.mem_cons.mp ((insertDesc_perm geq x ys).mem_iff.mp hz)
          with hz | hz
        · exact hz ▸ hyx
        · exact hp.1 z hz
      · exact insertDesc_pairwise geq P htot htrans x hx ys
          (fun a ha => hP a (List.mem_cons_of_mem y ha)) hp.2
    · rename_i hyx
      have hxy : geq x y = true := htot y x hyx
      rw [List.pairwise_cons]
      refine ⟨?_, List.pairwise_cons.mpr hp⟩
      intro z hz
      rcases List.mem_cons.mp hz with hz | hz
      · exact hz ▸ hxy
      · exact htrans x y z hx (hP y (List.mem_cons_self y ys))
          (hP z (List.mem_cons_of_mem y hz)) hxy (hp.1 z hz)

theorem sortDescGo_pairwise (geq : α → α → Bool) (P : α → Prop)
    (htot : ∀ a b, ¬ geq a b = true → geq b a = true)
    (htrans : ∀ a b c, P a → P b → P c →
      geq a b = true → geq b c = true → geq a c = true) :
    ∀ (l acc : List α), (∀ a ∈ l, P a) → (∀ a ∈ acc, P a) →
      acc.Pairwise (fun a b => geq a b = true) →
      (sortDescGo geq acc l).Pairwise (fun a b => geq a b = true)
  | [], acc, _, _, hp => hp
  | x :: xs, acc, hl, hacc, hp => by
    rw [sortDescGo]
    refine sortDescGo_pairwise geq P htot htrans xs _
      (fun a ha => hl a (List.mem_cons_of_mem x ha)) ?_ ?_
    · intro a ha
      rcases List.mem_cons.mp ((insertDesc_perm geq x acc).mem_iff.mp ha)
        with ha | ha
      · exact ha ▸ hl x (List.mem_cons_self x xs)
      · exact hacc a ha
    · exact insertDesc_pairwise geq P htot htrans x
        (hl x (List.mem_cons_self x xs)) acc hacc hp

theorem sortDesc_pairwise (geq : α → α → Bool) (P : α → Prop)
    (htot : ∀ a b, ¬ geq a b = true → geq b a = true)
    (htrans : ∀ a b c, P a → P b → P c →
      geq a b = true → geq b c = true → geq a c = true)
    (l : List α) (hl : ∀ a ∈ l, P a) :
    (sortDesc geq l).Pairwise (fun a b => geq a b = true) :=
  sortDescGo_pairwise geq P htot htrans l [] hl (by simp) (by simp)

/-- Stability of one insertion: the elements satisfying `p` (one key's
equivalence class) in `insertDesc geq x acc` are those of `acc` followed —
when `p x` — by `x` itself. -/
theorem insertDesc_filter (geq : α → α → Bool) (P : α → Prop)
    (htrans : ∀ a b c, P a → P b → P c →
      geq a b = true → geq b c = true → geq a c = true)
    (p : α → Bool)
    (x : α) (hx : P x)
    (hpx : p x = true → ∀ y, P y → p y = true → geq y x = true) :
    ∀ acc : List α, (∀ a ∈ acc, P a) →
      acc.Pairwise (fun a b => geq a b = true) →
      (insertDesc geq x acc).filter p = acc.filter p ++ [x].filter p
  | [], _, _ => by simp [insertDesc]
  | y :: ys, hP, hp => by
    rw [insertDesc]
    rw [List.pairwise_cons] at hp
    split
    · rw [List.filter_cons, List.filter_cons,
        insertDesc_filter geq P htrans p x hx hpx ys
          (fun a ha => hP a (List.mem_cons_of_mem y ha)) hp.2]
      split <;> simp
    · rename_i hyx
      by_cases hpxv : p x = true
      · have hfilt : (y :: ys).filter p = [] := by
          rw [List.filter_eq_nil_iff]
          intro z hz hpz
          rcases List.mem_cons.mp hz with hz | hz
          · exact hyx (hz ▸ hpx hpxv y (hP y (List.mem_cons_self y ys)) (hz ▸ hpz))
          · exact hyx (htrans y z x (hP y (List.mem_cons_self y ys))
              (hP z (List.mem_cons_of_mem y hz)) hx (hp.1 z hz)
              (hpx hpxv z (hP z (List.mem_cons_of_mem y hz)) hpz))
        rw [List.filter_cons_of_pos hpxv, hfilt]
        simp [hpxv]
      · rw [List.filter_cons_of_neg (by simpa using hpxv)]
        simp [hpxv]

theorem sortDescGo_filter (geq : α → α → Bool) (P : α → Prop)
    (htrans : ∀ a b c, P a → P b → P c →
      geq a b = true → geq b c = true → geq a c = true)
    (htot : ∀ a b, ¬ geq a b = true → geq b a = true)
    (p : α → Bool)
    (hpeq : ∀ a b, P a → P b → p a = true → p b = true → geq a b = true) :
    ∀ (l acc : List α), (∀ a ∈ l, P a) → (∀ a ∈ acc, P a) →
      acc.Pairwise (fun a b => geq a b = true) →
      (sortDescGo geq acc l).filter p = acc.filter p ++ l.filter p
  | [], acc, _, _, _ => by simp [sortDescGo]
  | x :: xs, acc, hl, hacc, hp => by
    have hxP : P x := hl x (List.mem_cons_self x xs)
    rw [sortDescGo,
      sortDescGo_filter geq P htrans htot p hpeq xs _
        (fun a ha => hl a (List.mem_cons_of_mem x ha))
        (fun a ha => by
          rcases List.mem_cons.mp ((insertDesc_perm geq x acc).mem_iff.mp ha)
            with ha | ha
          · exact ha ▸ hxP
          · exact hacc a ha)
        (insertDesc_pairwise geq P htot htrans x hxP acc hacc hp),
      insertDesc_filter geq P htrans p x hxP
        (fun hpxv y hy hpy => hpeq y x hy hxP hpy hpxv) acc hacc hp]
    by_cases hpxv : p x = true <;> simp [List.filter_cons, hpxv]

/-- Stability of the sort: within one key-equivalence class the original
order is preserved. -/
theorem sortDesc_filter (geq : α → α → Bool) (P : α → Prop)
    (htrans : ∀ a b c, P a → P b → P c →
      geq a b = true → geq b c = true → geq a c = true)
    (htot : ∀ a b, ¬ geq a b = true → geq b a = true)
    (p : α → Bool)
    (hpeq : ∀ a b, P a → P b → p a = true → p b = true → geq a b = true)
    (l : List α) (hl : ∀ a ∈ l, P a) :
    (sortDesc geq l).filter p = l.filter p := by
  have := sortDescGo_filter geq P htrans htot p hpeq l [] hl (by simp) (by simp)
  simpa [sortDesc] using this

/-!
## Lemmas: the exact similarity comparison agrees with the real-valued score
-/

/-- The query-norm-free part of the similarity score. -/
noncomputable def SimKey.rawVal (k : SimKey) : ℝ :=
  (k.d : ℝ) / Real.sqrt (k.csq : ℝ)

theorem SimKey.val_eq (k : SimKey) :
    k.val = k.rawVal / Real.sqrt (k.qsq : ℝ) := by
  rw [SimKey.val, SimKey.rawVal, div_div, mul_comm]

theorem mul_sqrt_le_mul_sqrt_iff {x y u v : ℝ} (hx : 0 ≤ x) (hy : 0 ≤ y)
    (hu : 0 ≤ u) (hv : 0 ≤ v) :
    x * Real.sqrt u ≤ y * Real.sqrt v ↔ x ^ 2 * u ≤ y ^ 2 * v := by
  constructor
  · intro h
    have h2 := pow_le_pow_left (by positivity) h 2
    simpa [mul_pow, Real.sq_sqrt hu, Real.sq_sqrt hv] using h2
  · intro h
    have h2 : (x * Real.sqrt u) ^ 2 ≤ (y * Real.sqrt v) ^ 2 := by
      simpa [mul_pow, Real.sq_sqrt hu, Real.sq_sqrt hv] using h
    exact le_of_pow_le_pow_left two_ne_zero (by positivity) h2

theorem simGeq_iff_rawVal (a b : SimKey) (ha : 0 < a.csq) (hb : 0 < b.csq) :
    simGeq a b = true ↔ b.rawVal ≤ a.rawVal := by
  have hra : (0:ℝ) < (a.csq : ℝ) := by exact_mod_cast ha
  have hrb : (0:ℝ) < (b.csq : ℝ) := by exact_mod_cast hb
  have hsa : (0:ℝ) < Real.sqrt (a.csq : ℝ) := Real.sqrt_pos.mpr hra
  have hsb : (0:ℝ) < Real.sqrt (b.csq : ℝ) := Real.sqrt_pos.mpr hrb
  have hiff : b.rawVal ≤ a.rawVal ↔
      (b.d : ℝ) * Real.sqrt (a.csq : ℝ) ≤
        (a.d : ℝ) * Real.sqrt (b.csq : ℝ) := by
    rw [SimKey.rawVal, SimKey.rawVal, div_le_div_iff hsb hsa]
  rw [hiff, simGeq]
  by_cases had : 0 ≤ a.d <;> by_cases hbd : 0 ≤ b.d <;> simp [had, hbd]
  · rw [mul_sqrt_le_mul_sqrt_iff (by exact_mod_cast hbd) (by exact_mod_cast had)
      (le_of_lt hra) (le_of_lt hrb)]
    constructor <;> intro h <;> exact_mod_cast h
  · have hbd' : (b.d : ℝ) < 0 := by exact_mod_cast not_le.mp hbd
    have had' : (0:ℝ) ≤ (a.d : ℝ) := by exact_mod_cast had
    nlinarith
  · have had' : (a.d : ℝ) < 0 := by exact_mod_cast not_le.mp had
    have hbd' : (0:ℝ) ≤ (b.d : ℝ) := by exact_mod_cast hbd
    nlinarith
  · have had' : (a.d : ℝ) < 0 := by exact_mod_cast not_le.mp had
    have hbd' : (b.d : ℝ) < 0 := by exact_mod_cast not_le.mp hbd
    have hneg : ((b.d : ℝ) * Real.sqrt (a.csq : ℝ) ≤
        (a.d : ℝ) * Real.sqrt (b.csq : ℝ)) ↔
        (-(a.d : ℝ)) * Real.sqrt (b.csq : ℝ) ≤
          (-(b.d : ℝ)) * Real.sqrt (a.csq : ℝ) := by
      constructor <;> intro h <;> linarith
    rw [hneg, mul_sqrt_le_mul_sqrt_iff (by linarith) (by linarith)
      (le_of_lt hrb) (le_of_lt hra), neg_sq, neg_sq]
    constructor <;> intro h <;> exact_mod_cast h

theorem simGeq_total (a b : SimKey) (h : ¬ simGeq a b = true) :
    simGeq b a = true := by
  simp only [simGeq] at h ⊢
  by_cases had : 0 ≤ a.d <;> by_cases hbd : 0 ≤ b.d <;>
    simp [had, hbd] at h ⊢ <;> linarith

theorem simGeq_trans (a b c : SimKey) (ha : 0 < a.csq) (hb : 0 < b.csq)
    (hc : 0 < c.csq) (h1 : simGeq a b = true) (h2 : simGeq b c = true) :
    simGeq a c = true := by
  rw [simGeq_iff_rawVal a b ha hb] at h1
  rw [simGeq_iff_rawVal b c hb hc] at h2
  rw [simGeq_iff_rawVal a c ha hc]
  exact le_trans h2 h1

theorem simGeq_val_le (a b : SimKey) (ha : 0 < a.csq) (hb : 0 < b.csq)
    (hq : a.qsq = b.qsq) (h : simGeq a b = true) : b.val ≤ a.val := by
  rw [SimKey.val_eq, SimKey.val_eq, hq]
  have hr := (simGeq_iff_rawVal a b ha hb).mp h
  have hs : (0:ℝ) ≤ Real.sqrt (b.qsq : ℝ) := Real.sqrt_nonneg _
  rcases eq_or_lt_of_le hs with hs0 | hs0
  · rw [← hs0]
    simp
  · exact (div_le_div_right hs0).mpr hr

/-!
## Lemmas: the scoring loop and the result-building loop
-/

theorem epsNormSq_pos : (0:ℚ) < epsNormSq := by
  rw [epsNormSq]
  norm_num

theorem scoredCandidates_mem {n : ℕ} {vs : VectorService} {qe : List ℚ}
    {fs : List DBFilter} {p : PolicyChunk × SimKey}
    (h : p ∈ scoredCandidates n vs qe fs) :
    p.1 ∈ vs.chunks ∧ epsNormSq ≤ p.2.csq ∧ p.2.qsq = sqnorm qe ∧
    p.2.csq = sqnorm (reconcile n p.1.embedding) ∧
    p.2.d = dotp qe (reconcile n p.1.embedding) ∧
    (∀ v, lookupPolicyIdFilter fs = some v → p.1.policy_id = v) := by
  rw [scoredCandidates, List.mem_filterMap] at h
  obtain ⟨c, hc, hbody⟩ := h
  have hcmem : c ∈ vs.chunks := by
    rw [dbFilteredChunks] at hc
    by_cases hf : fs.isEmpty <;> simp [hf] at hc
    · exact hc
    · exact hc.1
  simp only at hbody
  by_cases hz : sqnorm (reconcile n c.embedding) < epsNormSq
  · simp [hz] at hbody
  · cases hlk : lookupPolicyIdFilter fs with
    | none =>
      simp [hz, hlk] at hbody
      rw [← hbody]
      exact ⟨hcmem, not_lt.mp hz, rfl, rfl, rfl, by simp [hlk]⟩
    | some v =>
      by_cases hpid : c.policy_id ≠ v
      · simp [hz, hlk, hpid] at hbody
      · push_neg at hpid
        simp [hz, hlk, hpid] at hbody
        rw [← hbody]
        refine ⟨hcmem, not_lt.mp hz, rfl, rfl, rfl, ?_⟩
        intro v' hv'
        rw [← Option.some.inj hv']
        exact hpid

/-- Every result entry comes from a listed (chunk, key) pair: its fields
are the chunk's identifying columns, its `chunk_text` is the value the
intent extraction produced from the chunk's stored text under some state of
the seen-set, and that value is non-empty. -/
theorem extractResults_cons (js : Str → Option PyVal) (ql : Str)
    (seen : List Str) (c : PolicyChunk) (k : SimKey)
    (rest : List (PolicyChunk × SimKey)) :
    extractResults js ql seen ((c, k) :: rest) =
      match (extractInfo js ql c.chunk_text seen).1 with
      | some s =>
        if s ≠ [] then
          ⟨c.policy_id, c.section_type, c.document_source_filename, s, k⟩ ::
            extractResults js ql (extractInfo js ql c.chunk_text seen).2 rest
        else extractResults js ql (extractInfo js ql c.chunk_text seen).2 rest
      | Option.none =>
        extractResults js ql (extractInfo js ql c.chunk_text seen).2 rest := rfl

theorem extractResults_mem (js : Str → Option PyVal) (ql : Str) :
    ∀ (l : List (PolicyChunk × SimKey)) (seen : List Str) (r : SearchResult),
      r ∈ extractResults js ql seen l →
      ∃ p, p ∈ l ∧ ∃ seen₀,
        (extractInfo js ql p.1.chunk_text seen₀).1 = some r.chunk_text ∧
        r.chunk_text ≠ [] ∧ r.policy_id = p.1.policy_id ∧
        r.section_type = p.1.section_type ∧
        r.document_source_filename = p.1.document_source_filename ∧
        r.simKey = p.2
  | [], _, r, h => by simp [extractResults] at h
  | (c, k) :: rest, seen, r, h => by
    rw [extractResults_cons] at h
    cases hm : (extractInfo js ql c.chunk_text seen).1 with
    | none =>
      simp only [hm] at h
      obtain ⟨p, hp, hrest⟩ := extractResults_mem js ql rest _ r h
      exact ⟨p, List.mem_cons_of_mem _ hp, hrest⟩
    | some s =>
      simp only [hm] at h
      by_cases hs : s ≠ []
      · rw [if_pos hs] at h
        rcases List.mem_cons.mp h with h | h
        · refine ⟨(c, k), List.mem_cons_self _ _, seen, ?_⟩
          rw [h]
          exact ⟨hm, hs, rfl, rfl, rfl, rfl⟩
        · obtain ⟨p, hp, hrest⟩ := extractResults_mem js ql rest _ r h
          exact ⟨p, List.mem_cons_of_mem _ hp, hrest⟩
      · rw [if_neg hs] at h
        obtain ⟨p, hp, hrest⟩ := extractResults_mem js ql rest _ r h
        exact ⟨p, List.mem_cons_of_mem _ hp, hrest⟩

/-- The result entries' keys form a sublist of the ranked keys. -/
theorem extractResults_keys_sublist (js : Str → Option PyVal) (ql : Str) :
    ∀ (l : List (PolicyChunk × SimKey)) (seen : List Str),
      ((extractResults js ql seen l).map SearchResult.simKey).Sublist
        (l.map (·.2))
  | [], _ => by simp [extractResults]
  | (c, k) :: rest, seen => by
    rw [extractResults_cons]
    cases hm : (extractInfo js ql c.chunk_text seen).1 with
    | none =>
      simp only [hm]
      exact (extractResults_keys_sublist js ql rest _).cons k
    | some s =>
      simp only [hm]
      by_cases hs : s ≠ []
      · rw [if_pos hs, List.map_cons, List.map_cons]
        exact (extractResults_keys_sublist js ql rest _).cons₂ k
      · rw [if_neg hs]
        exact (extractResults_keys_sublist js ql rest _).cons k

/-- A query whose lowered text contains none of the recognized intent
phrases yields no extraction for any chunk. -/
theorem extractInfo_unrecognized (js : Str → Option PyVal) (ql txt : Str)
    (seen : List Str) (h : recognizedIntent ql = false) :
    extractInfo js ql txt seen = (Option.none, seen) := by
  rw [recognizedIntent] at h
  simp only [Bool.or_eq_false_iff] at h
  obtain ⟨⟨⟨⟨⟨⟨⟨⟨h1, h2⟩, h3⟩, h4⟩, h5⟩, h6⟩, h7⟩, h8⟩, h9⟩ := h
  rw [extractInfo, h1, h2, h3, h4, h5, h6, h7, h8, h9]
  rfl

theorem extractResults_unrecognized (js : Str → Option PyVal) (ql : Str)
    (h : recognizedIntent ql = false) :
    ∀ (l : List (PolicyChunk × SimKey)) (seen : List Str),
      extractResults js ql seen l = []
  | [], _ => rfl
  | (c, k) :: rest, seen => by
    rw [extractResults]
    simp only [extractInfo_unrecognized js ql c.chunk_text seen h]
    exact extractResults_unrecognized js ql h rest _

/-!
## The claims
-/

/-- **C2** — For every raw text, the Chunking Engine's raw-text chunks are
the fixed 1000-character segments in order: concatenating their texts
reconstructs the raw text exactly (no loss, no overlap), and a raw text of
exactly 2500 characters yields exactly three raw-text chunks of lengths
1000, 1000 and 500. -/
theorem claim_rawtext_roundtrip (pd : PolicyData) (pid : ℤ) (fn : Str) :
    ((((chunkPolicyJson pd pid fn).filter
        (fun c => c.section_type == "raw_text".toList)).map
          ChunkRec.chunk_text).foldr (· ++ ·) [] = pd.rawText) ∧
    (pd.rawText.length = 2500 →
      ((chunkPolicyJson pd pid fn).filter
        (fun c => c.section_type == "raw_text".toList)).map
          (fun c => c.chunk_text.length) = [1000, 1000, 500]) := by
  have hcomp : (ChunkRec.chunk_text ∘ fun seg : Str =>
      (⟨pid, fn, "raw_text".toList, seg⟩ : ChunkRec)) = id := rfl
  constructor
  · rw [chunkPolicyJson_rawChunks, List.map_map, hcomp, List.map_id]
    exact rawTextSegments_join pd.rawText
  · intro h
    rw [chunkPolicyJson_rawChunks, List.map_map]
    have hlen : ((fun c : ChunkRec => c.chunk_text.length) ∘ fun seg : Str =>
        (⟨pid, fn, "raw_text".toList, seg⟩ : ChunkRec)) = List.length := rfl
    rw [hlen]
    exact rawTextSegments_lengths_2500 _ h

theorem claim_rawtext_roundtrip_witness :
    ((PolicyData.mk [("raw_text".toList,
        PyObj.scalar (List.replicate 2500 'a'))]).rawText.length = 2500) ∧
    ((chunkPolicyJson (PolicyData.mk [("raw_text".toList,
        PyObj.scalar (List.replicate 2500 'a'))]) 1 []).filter
      (fun c => c.section_type == "raw_text".toList)).map
        (fun c => c.chunk_text.length) = [1000, 1000, 500] := by
  have hraw : (PolicyData.mk [("raw_text".toList,
      PyObj.scalar (List.replicate 2500 'a'))]).rawText =
      List.replicate 2500 'a' := rfl
  have hlen : (PolicyData.mk [("raw_text".toList,
      PyObj.scalar (List.replicate 2500 'a'))]).rawText.length = 2500 := by
    rw [hraw, List.length_replicate]
  exact ⟨hlen, (claim_rawtext_roundtrip (PolicyData.mk [("raw_text".toList,
    PyObj.scalar (List.replicate 2500 'a'))]) 1 []).2 hlen⟩

/-- **C7** — corrected.  The claim's labeling (coverage chunks numbered by
the running count of emitted coverage chunks, raw-text chunks labeled
`raw_text_<emitted-order-index>`) does not match the code: the emitted
section labels number coverage chunks by their 1-based position in the
source `coverage_details` array — a skipped entry leaves a gap, its index is
NOT taken over by the next emitted chunk — and every raw-text chunk carries
the constant section label `"raw_text"`, with no index at all. -/
theorem claim_section_labels (pd : PolicyData) (pid : ℤ) (fn : Str) :
    (chunkPolicyJson pd pid fn).map ChunkRec.section_type =
      amendedSectionLabels pd := by
  unfold chunkPolicyJson amendedSectionLabels
  rw [List.map_append, List.map_append]
  congr 1
  · congr 1
    · split <;> rfl
    · rw [List.map_filterMap]
      congr 1
      funext ic
      by_cases hc : coverageLines ic.2 ≠ [] <;> simp [hc]
  · rw [List.map_map]
    have hfun : (ChunkRec.section_type ∘ fun seg : Str =>
        (⟨pid, fn, "raw_text".toList, seg⟩ : ChunkRec)) =
        fun _ => "raw_text".toList := rfl
    rw [hfun, List.map_const']

/-- **C7** counterexample: a policy whose first coverage entry produces no
usable text and whose raw text is `"ab"`.  The code emits section labels
`["coverage_2", "raw_text"]`; the claim's labels (running emitted count,
indexed raw-text labels) would be `["coverage_1", "raw_text_0"]`. -/
theorem claim_section_labels_cex :
    ((chunkPolicyJson (PolicyData.mk
        [("coverage_details".toList, PyObj.covList
          [[("limit".toList, Option.none)],
           [("limit".toList, some "100".toList)]] []),
         ("raw_text".toList, PyObj.scalar "ab".toList)]) 1 []).map
      ChunkRec.section_type = ["coverage_2".toList, "raw_text".toList]) ∧
    (claimedSectionLabels (PolicyData.mk
        [("coverage_details".toList, PyObj.covList
          [[("limit".toList, Option.none)],
           [("limit".toList, some "100".toList)]] []),
         ("raw_text".toList, PyObj.scalar "ab".toList)]) =
      ["coverage_1".toList, "raw_text_0".toList]) ∧
    ((chunkPolicyJson (PolicyData.mk
        [("coverage_details".toList, PyObj.covList
          [[("limit".toList, Option.none)],
           [("limit".toList, some "100".toList)]] []),
         ("raw_text".toList, PyObj.scalar "ab".toList)]) 1 []).map
      ChunkRec.section_type ≠ claimedSectionLabels (PolicyData.mk
        [("coverage_details".toList, PyObj.covList
          [[("limit".toList, Option.none)],
           [("limit".toList, some "100".toList)]] []),
         ("raw_text".toList, PyObj.scalar "ab".toList)])) := by
  refine ⟨?_, ?_, ?_⟩ <;> decide

/-- A successful `get_text_embedding` call leaves the chunk table and the
`json.loads` collaborator untouched, and always leaves the `vocab_size`
attribute set (the empty/non-string guard reads it and the non-empty path
assigns it when the vectorizer was unfitted). -/
theorem getTextEmbedding_ok_state {vs : VectorService} {i : PyInput}
    {qe : List ℚ} {vs' : VectorService}
    (h : getTextEmbedding vs i = .ok (qe, vs')) :
    vs'.chunks = vs.chunks ∧ vs'.jsonLoads = vs.jsonLoads ∧
    ∃ n, vs'.vocab_size = some n := by
  cases i with
  | nonStr =>
    rw [getTextEmbedding] at h
    cases hv : vs.vocab_size with
    | none =>
      rw [hv] at h
      exact absurd h (by simp)
    | some n =>
      rw [hv] at h
      have hvs : vs' = vs := (congrArg Prod.snd (Except.ok.inj h)).symm
      subst hvs
      exact ⟨rfl, rfl, n, hv⟩
  | str s =>
    rw [getTextEmbedding] at h
    by_cases hs : s = []
    · rw [if_pos hs] at h
      cases hv : vs.vocab_size with
      | none =>
        rw [hv] at h
        exact absurd h (by simp)
      | some n =>
        rw [hv] at h
        have hvs : vs' = vs := (congrArg Prod.snd (Except.ok.inj h)).symm
        subst hvs
        exact ⟨rfl, rfl, n, hv⟩
    · rw [if_neg hs] at h
      by_cases hf : vs.fitted
      · simp only [hf, if_true] at h
        cases hv : vs.vocab_size with
        | none =>
          rw [hv] at h
          exact absurd h (by simp)
        | some n =>
          rw [hv] at h
          have hvs : vs' = vs := (congrArg Prod.snd (Except.ok.inj h)).symm
          subst hvs
          exact ⟨rfl, rfl, n, hv⟩
      · simp only [hf, if_false] at h
        have hvs : vs' = { vs with
            fitted := true,
            vocab_size := some (vs.bootstrapSize s) } :=
          (congrArg Prod.snd (Except.ok.inj h)).symm
        subst hvs
        exact ⟨rfl, rfl, vs.bootstrapSize s, rfl⟩

/-- Structure of a successful `search_similar_chunks` call: the query embed
succeeded, and the result list is either empty (zero-norm query, or the
degenerate unset-attribute state with nothing to score) or the extraction
over the top-ranked scored candidates for the vocabulary size in force. -/
theorem searchSimilarChunks_ok {vs : VectorService} {query : Str}
    {top_k : ℕ} {fs : List DBFilter}
    {out : List SearchResult × VectorService}
    (h : searchSimilarChunks vs query top_k fs = .ok out) :
    ∃ qe, getTextEmbedding vs (.str query) = .ok (qe, out.2) ∧
      (out.1 = [] ∨
        (¬ sqnorm qe < epsNormSq ∧ ∃ n, out.2.vocab_size = some n ∧
          out.1 = extractResults out.2.jsonLoads (pyLower query) []
            (topRanked n out.2 qe top_k fs))) := by
  rw [searchSimilarChunks] at h
  cases hg : getTextEmbedding vs (.str query) with
  | error m =>
    rw [hg] at h
    exact absurd h (by simp)
  | ok e =>
    obtain ⟨qe, vs'⟩ := e
    simp only [hg] at h
    by_cases hz : sqnorm qe < epsNormSq
    · rw [if_pos hz] at h
      have ho := Except.ok.inj h
      subst ho
      exact ⟨qe, rfl, Or.inl rfl⟩
    · rw [if_neg hz] at h
      cases hv : vs'.vocab_size with
      | some n =>
        rw [hv] at h
        have ho := Except.ok.inj h
        subst ho
        exact ⟨qe, rfl, Or.inr ⟨hz, n, hv, rfl⟩⟩
      | none =>
        rw [hv] at h
        by_cases he : (dbFilteredChunks vs' fs).isEmpty = true
        · rw [if_pos he] at h
          have ho := Except.ok.inj h
          subst ho
          exact ⟨qe, rfl, Or.inl rfl⟩
        · rw [if_neg he] at h
          exact absurd h (by simp)

/-- **C5** — corrected.  The no-exception claim holds only when the
`self.vocab_size` attribute is set: then `get_text_embedding` on the empty
string (and on any non-string input) returns the all-zero vector of that
size without raising, and a search whose query embedding succeeds with
effectively zero norm (`np.linalg.norm < 1e-10`) returns the empty result
set rather than an error.  In the state `_fit_vectorizer` leaves behind
over an empty chunk table the attribute is unset, and `embed("")` raises
`AttributeError` (re-raised by the handler) instead of returning a vector;
`search` propagates that exception. -/
theorem claim_zero_query_empty (vs : VectorService) (top_k : ℕ)
    (fs : List DBFilter) (n : ℕ) :
    (vs.vocab_size = some n →
      getTextEmbedding vs (.str []) = .ok (List.replicate n 0, vs) ∧
      getTextEmbedding vs .nonStr = .ok (List.replicate n 0, vs)) ∧
    (vs.vocab_size = Option.none →
      getTextEmbedding vs (.str []) = .error attributeErrorMsg ∧
      getTextEmbedding vs .nonStr = .error attributeErrorMsg) ∧
    (∀ (q : Str) (qe : List ℚ) (vs' : VectorService),
      getTextEmbedding vs (.str q) = .ok (qe, vs') →
      sqnorm qe < epsNormSq →
      searchSimilarChunks vs q top_k fs = .ok ([], vs')) := by
  refine ⟨?_, ?_, ?_⟩
  · intro hv
    constructor
    · rw [getTextEmbedding, if_pos rfl, hv]
    · rw [getTextEmbedding, hv]
  · intro hv
    constructor
    · rw [getTextEmbedding, if_pos rfl, hv]
    · rw [getTextEmbedding, hv]
  · intro q qe vs' hok hz
    rw [searchSimilarChunks]
    simp only [hok]
    rw [if_pos hz]

/-- **C5** counterexample: the service `__init__` builds over an empty
chunk table (`_fit_vectorizer` sees `chunks == []`, assigns nothing, raises
nothing).  In that state `self.vocab_size` is unset, and `embed("")` — and
`embed` of a non-string, and any search — raises `AttributeError` instead
of returning the claimed all-zero vector. -/
theorem claim_zero_query_empty_cex :
    ((initVectorService [] (.ok 0) (fun _ => 1) (fun _ => [1])
      (fun _ => Option.none)).vocab_size = Option.none) ∧
    (getTextEmbedding (initVectorService [] (.ok 0) (fun _ => 1)
      (fun _ => [1]) (fun _ => Option.none)) (.str []) =
      .error attributeErrorMsg) ∧
    (getTextEmbedding (initVectorService [] (.ok 0) (fun _ => 1)
      (fun _ => [1]) (fun _ => Option.none)) .nonStr =
      .error attributeErrorMsg) ∧
    (searchSimilarChunks (initVectorService [] (.ok 0) (fun _ => 1)
      (fun _ => [1]) (fun _ => Option.none)) [] 5 [] =
      .error attributeErrorMsg) :=
  ⟨rfl, rfl, rfl, rfl⟩

theorem claim_zero_query_empty_witness :
    ((VectorService.mk (some 2) true (fun _ => 2) (fun _ => [1, 0])
      (fun _ => Option.none) []).vocab_size = some 2) ∧
    (searchSimilarChunks (VectorService.mk (some 2) true (fun _ => 2)
      (fun _ => [1, 0]) (fun _ => Option.none) []) [] 5 [] =
      .ok ([], VectorService.mk (some 2) true (fun _ => 2)
        (fun _ => [1, 0]) (fun _ => Option.none) [])) :=
  ⟨rfl,
   (claim_zero_query_empty (VectorService.mk (some 2) true (fun _ => 2)
      (fun _ => [1, 0]) (fun _ => Option.none) []) 5 [] 2).2.2 []
     (List.replicate 2 0)
     (VectorService.mk (some 2) true (fun _ => 2) (fun _ => [1, 0])
       (fun _ => Option.none) [])
     (((claim_zero_query_empty (VectorService.mk (some 2) true (fun _ => 2)
        (fun _ => [1, 0]) (fun _ => Option.none) []) 5 [] 2).1 rfl).1)
     (by
      show sqnorm (List.replicate 2 0) < epsNormSq
      norm_num [sqnorm, epsNormSq, List.replicate])⟩

/-- **C1** — Scope isolation of `search_similar_chunks`: when the filters
carry a `policy_id` value, every entry of a successfully returned result
list has that `policy_id`, whatever the stored chunks, their embeddings, or
their similarity to the query. -/
theorem claim_search_scope (vs : VectorService) (query : Str) (top_k : ℕ)
    (fs : List DBFilter) (v : ℤ) (out : List SearchResult × VectorService)
    (h : lookupPolicyIdFilter fs = some v)
    (hok : searchSimilarChunks vs query top_k fs = Except.ok out) :
    ∀ r ∈ out.1, r.policy_id = v := by
  intro r hr
  obtain ⟨qe, hg, hcase⟩ := searchSimilarChunks_ok hok
  rcases hcase with hnil | ⟨hz, n, hv, hform⟩
  · rw [hnil] at hr
    simp at hr
  · rw [hform] at hr
    obtain ⟨p, hp, seen₀, _, _, hpid, _, _, _⟩ :=
      extractResults_mem _ _ _ _ r hr
    have hp2 : p ∈ rankedCandidates n out.2 qe fs :=
      List.mem_of_mem_take hp
    have hp3 : p ∈ scoredCandidates n out.2 qe fs := mem_sortDesc _ hp2
    rw [hpid]
    exact (scoredCandidates_mem hp3).2.2.2.2.2 v h

/-- A two-policy store for exercising `claim_search_scope` at a concrete
input: policies 1 and 2 each own one chunk, identical embeddings. -/
def wService : VectorService :=
  VectorService.mk (some 1) true (fun _ => 1) (fun _ => [1])
    (fun _ => Option.none)
    [PolicyChunk.mk 1 [] "policy_details".toList
       "policy_number: P1".toList [1],
     PolicyChunk.mk 2 [] "policy_details".toList
       "policy_number: P2".toList [1]]

theorem wService_embed :
    getTextEmbedding wService (.str "policy number".toList) =
      .ok ([1], wService) := by
  rw [getTextEmbedding, if_neg (by decide)]
  simp [wService, reconcile]

theorem sqnorm_one_not_lt_eps : ¬ sqnorm [(1:ℚ)] < epsNormSq := by
  norm_num [sqnorm, epsNormSq]

theorem wService_scored :
    scoredCandidates 1 wService [1] [DBFilter.policyId 1] =
      [(PolicyChunk.mk 1 [] "policy_details".toList
          "policy_number: P1".toList [1], SimKey.mk 1 1 1)] := by
  rw [scoredCandidates]
  have hfilter : dbFilteredChunks wService [DBFilter.policyId 1] =
      [PolicyChunk.mk 1 [] "policy_details".toList
        "policy_number: P1".toList [1]] := by decide
  rw [hfilter]
  simp only [List.filterMap_cons, List.filterMap_nil]
  norm_num [reconcile, sqnorm, epsNormSq, dotp, lookupPolicyIdFilter]

theorem wService_search :
    searchSimilarChunks wService "policy number".toList 5
      [DBFilter.policyId 1] =
    .ok ([SearchResult.mk 1 "policy_details".toList [] "P1".toList
      (SimKey.mk 1 1 1)], wService) := by
  rw [searchSimilarChunks]
  simp only [wService_embed]
  rw [if_neg sqnorm_one_not_lt_eps]
  have hv : wService.vocab_size = some 1 := rfl
  simp only [hv]
  rw [topRanked, rankedCandidates, wService_scored]
  have hdone : extractResults wService.jsonLoads
      (pyLower "policy number".toList) []
      ((sortDesc simPairGeq
        [(PolicyChunk.mk 1 [] "policy_details".toList
            "policy_number: P1".toList [1], SimKey.mk 1 1 1)]).take 5) =
      [SearchResult.mk 1 "policy_details".toList [] "P1".toList
        (SimKey.mk 1 1 1)] := by decide
  rw [hdone]

theorem claim_search_scope_witness :
    (lookupPolicyIdFilter [DBFilter.policyId 1] = some 1) ∧
    (SearchResult.mk 1 "policy_details".toList [] "P1".toList
      (SimKey.mk 1 1 1)).policy_id = 1 :=
  ⟨rfl,
   claim_search_scope wService "policy number".toList 5
     [DBFilter.policyId 1] 1
     ([SearchResult.mk 1 "policy_details".toList [] "P1".toList
        (SimKey.mk 1 1 1)], wService) rfl wService_search
     (SearchResult.mk 1 "policy_details".toList [] "P1".toList
       (SimKey.mk 1 1 1))
     (List.mem_singleton.mpr rfl)⟩

/-- **C6** — Dimension reconciliation is read-time only: the vector a
similarity computation uses for a stored chunk is the stored embedding
padded with zeros (when shorter than the vocabulary size) or truncated
(when longer), always of length exactly the vocabulary size; every scored
candidate's similarity components are computed from that reconciled copy;
and the search leaves the stored chunk records (including every stored
embedding) unchanged. -/
theorem claim_dimension_reconciliation (c : PolicyChunk) (n : ℕ)
    (st : VectorService) (qe : List ℚ) (fs : List DBFilter)
    (vs : VectorService) (query : Str) (top_k : ℕ) :
    (reconcile n c.embedding =
      if n ≤ c.embedding.length then c.embedding.take n
      else c.embedding ++ List.replicate (n - c.embedding.length) 0) ∧
    ((reconcile n c.embedding).length = n) ∧
    (((scoredCandidates n st qe fs).all fun p =>
      decide (p.2.csq = sqnorm (reconcile n p.1.embedding)) &&
      decide (p.2.d = dotp qe (reconcile n p.1.embedding)))
        = true) ∧
    (∀ out, searchSimilarChunks vs query top_k fs = Except.ok out →
      out.2.chunks = vs.chunks) := by
  refine ⟨?_, ?_, ?_, ?_⟩
  · rw [reconcile]
    by_cases he : c.embedding.length = n
    · rw [if_pos he, if_pos (le_of_eq he.symm),
        List.take_of_length_le (le_of_eq he)]
    · rw [if_neg he]
      by_cases hlt : c.embedding.length < n
      · rw [if_pos hlt, if_neg (by omega)]
      · rw [if_neg hlt, if_pos (by omega)]
  · rw [reconcile]
    by_cases he : c.embedding.length = n
    · rw [if_pos he]
      exact he
    · rw [if_neg he]
      by_cases hlt : c.embedding.length < n
      · rw [if_pos hlt]
        simp only [List.length_append, List.length_replicate]
        omega
      · rw [if_neg hlt, List.length_take]
        omega
  · rw [List.all_eq_true]
    intro p hp
    obtain ⟨_, _, _, hcsq, hd, _⟩ := scoredCandidates_mem hp
    simp [hcsq, hd]
  · intro out hok
    obtain ⟨qe', hg, _⟩ := searchSimilarChunks_ok hok
    exact (getTextEmbedding_ok_state hg).1

/-- **C10** — `search_similar_chunks` returns an entry only for a
top-ranked chunk from which the intent-extraction step produced a non-empty
value, and that entry's `chunk_text` is the extracted value, not the stored
chunk's verbatim text; a query recognizing no intent phrase yields the
empty list however similar the stored chunks are. -/
theorem claim_intent_extraction (vs : VectorService) (query : Str)
    (top_k : ℕ) (fs : List DBFilter) :
    (recognizedIntent (pyLower query) = false →
      ∀ out, searchSimilarChunks vs query top_k fs = Except.ok out →
        out.1 = []) ∧
    (∀ out, searchSimilarChunks vs query top_k fs = Except.ok out →
      ∀ r ∈ out.1, ∃ n qe p,
        getTextEmbedding vs (.str query) = Except.ok (qe, out.2) ∧
        out.2.vocab_size = some n ∧
        p ∈ topRanked n out.2 qe top_k fs ∧ ∃ seen₀,
        (extractInfo vs.jsonLoads (pyLower query) p.1.chunk_text seen₀).1 =
          some r.chunk_text ∧ r.chunk_text ≠ [] ∧
        r.policy_id = p.1.policy_id ∧
        r.section_type = p.1.section_type ∧ r.simKey = p.2) := by
  constructor
  · intro h out hok
    obtain ⟨qe, hg, hcase⟩ := searchSimilarChunks_ok hok
    rcases hcase with hnil | ⟨hz, n, hv, hform⟩
    · exact hnil
    · rw [hform]
      exact extractResults_unrecognized _ _ h _ _
  · intro out hok r hr
    obtain ⟨qe, hg, hcase⟩ := searchSimilarChunks_ok hok
    rcases hcase with hnil | ⟨hz, n, hv, hform⟩
    · rw [hnil] at hr
      simp at hr
    · rw [hform] at hr
      obtain ⟨p, hp, seen₀, hsome, hne, hpid, hsec, _, hkey⟩ :=
        extractResults_mem _ _ _ _ r hr
      rw [(getTextEmbedding_ok_state hg).2.1] at hsome
      exact ⟨n, qe, p, hg, hv, hp, seen₀, hsome, hne, hpid, hsec, hkey⟩

theorem wService_hello_embed :
    getTextEmbedding wService (.str "hello".toList) =
      .ok ([1], wService) := by
  rw [getTextEmbedding, if_neg (by decide)]
  simp [wService, reconcile]

theorem wService_hello_search :
    searchSimilarChunks wService "hello".toList 5 [] =
      .ok ([], wService) := by
  rw [searchSimilarChunks]
  simp only [wService_hello_embed]
  rw [if_neg sqnorm_one_not_lt_eps]
  have hv : wService.vocab_size = some 1 := rfl
  simp only [hv]
  rw [extractResults_unrecognized _ _ (by decide)]

theorem claim_intent_extraction_witness :
    (recognizedIntent (pyLower "hello".toList) = false) ∧
    ((([], wService) : List SearchResult × VectorService).1 = []) :=
  ⟨by decide,
   (claim_intent_extraction wService "hello".toList 5 []).1 (by decide)
     ([], wService) wService_hello_search⟩

/-- The policy numbers stage 2 actually receives: those of the items whose
status is success AND whose policy-number field is present and non-empty. -/
def successfulPolicyNumbersSpec (rs : List ItemResult) : List Str :=
  (rs.filter fun r => r.status_success && pnTruthy r).filterMap
    (·.policy_number)

/-- The chain handoff of `run_chained_pipeline`: the value
`vector_processing_step` receives as its `policy_numbers` argument. -/
def chainStage2Input (initError : Option Str) (files : List FileInput) :
    List Str :=
  extractPolicyNumbersFromDocs (processDocumentsStep initError files)

theorem docLoop_eq :
    ∀ (files : List FileInput) (acc : List ItemResult),
      docLoop acc files = acc ++ files.map docItemResult
  | [], acc => by simp [docLoop]
  | f :: rest, acc => by
    rw [docLoop, docLoop_eq rest]
    simp

theorem vecLoop_eq :
    ∀ (items : List VecInput) (acc : List VecItemResult),
      vecLoop acc items = acc ++ items.map vecItemResult
  | [], acc => by simp [vecLoop]
  | v :: rest, acc => by
    rw [vecLoop, vecLoop_eq rest]
    simp

theorem extractPolicyNumbersFromDocs_success (sc tc : ℕ) :
    ∀ rs : List ItemResult,
      extractPolicyNumbersFromDocs (.successResult rs sc tc) =
        successfulPolicyNumbersSpec rs := by
  intro rs
  rw [extractPolicyNumbersFromDocs, successfulPolicyNumbersSpec]
  induction rs with
  | nil => rfl
  | cons r rest ih =>
    rw [List.filterMap_cons, List.filter_cons]
    by_cases hr : (r.status_success && pnTruthy r) = true
    · rw [if_pos hr, if_pos hr, List.filterMap_cons]
      cases hpn : r.policy_number with
      | none =>
        have hpt : pnTruthy r = true := by
          simp only [Bool.and_eq_true] at hr
          exact hr.2
        rw [pnTruthy, hpn] at hpt
        simp at hpt
      | some pn =>
        simp only [hpn, ih]
    · rw [if_neg hr, if_neg hr]
      exact ih

/-- **C4** corrected.  The extraction between stage 1 and stage 2 keeps, in
stage-1 result order, exactly the policy numbers of the items whose status
is success *and* whose policy-number field is present and non-empty (Python
truthiness); a success item carrying a null or empty policy number is
dropped, and a failed item's identifier is never passed.  On a stage-level
error result the handoff is the empty list. -/
theorem claim_stage_handoff (m : Str) (rs : List ItemResult) (sc tc : ℕ)
    (files : List FileInput) :
    (extractPolicyNumbersFromDocs (.errorResult m) = []) ∧
    (extractPolicyNumbersFromDocs (.successResult rs sc tc) =
      successfulPolicyNumbersSpec rs) ∧
    (chainStage2Input Option.none files =
      successfulPolicyNumbersSpec (files.map docItemResult)) ∧
    (chainStage2Input (some m) files = []) := by
  refine ⟨rfl, extractPolicyNumbersFromDocs_success sc tc rs, ?_, rfl⟩
  rw [chainStage2Input, processDocumentsStep]
  simp only [docLoop_eq, List.nil_append]
  exact extractPolicyNumbersFromDocs_success _ _ _

/-- **C4** counterexample: a stage-1 result whose single item has status
success and the policy number `""`.  The claim as stated would hand stage 2
that item's policy number; the code's extraction drops it (empty string is
falsy), so the handoff is `[]` while the success items' policy numbers are
`[some ""]`. -/
theorem claim_stage_handoff_cex :
    (extractPolicyNumbersFromDocs (.successResult
      [ItemResult.mk "f1".toList true (some []) Option.none] 1 1) = []) ∧
    ((([ItemResult.mk "f1".toList true (some []) Option.none]).filter
      (·.status_success)).map ItemResult.policy_number = [some []]) ∧
    ¬ ((extractPolicyNumbersFromDocs (.successResult
        [ItemResult.mk "f1".toList true (some []) Option.none] 1 1)).map
          some =
      (([ItemResult.mk "f1".toList true (some []) Option.none]).filter
        (·.status_success)).map ItemResult.policy_number) := by
  refine ⟨?_, ?_, ?_⟩ <;> decide

theorem claim_stage_handoff_witness :
    chainStage2Input Option.none
      [FileInput.mk "a.pdf".toList (.succeeds (some "P1".toList)),
       FileInput.mk "b.pdf".toList (.fails "boom".toList),
       FileInput.mk "c.pdf".toList (.succeeds (some "P3".toList))] =
      ["P1".toList, "P3".toList] := by
  rw [(claim_stage_handoff [] [] 0 0
    [FileInput.mk "a.pdf".toList (.succeeds (some "P1".toList)),
     FileInput.mk "b.pdf".toList (.fails "boom".toList),
     FileInput.mk "c.pdf".toList (.succeeds (some "P3".toList))]).2.2.1]
  decide

/-- **C8** — Per-item error isolation: a stage whose service construction
succeeds returns an overall-success result with exactly one entry per input
item whatever each item's fate; an item whose body raises is recorded as
that item's error entry (the loop continues, later items still get
entries); only a stage-level failure (the service cannot be built) yields
`{status: 'error', error: message}`. -/
theorem claim_per_item_isolation (files : List FileInput)
    (items : List VecInput) (m : Str) (p : Str) (em : Str) :
    (processDocumentsStep (some m) files = .errorResult m) ∧
    (vectorProcessingStep (some m) items = .errorResult m) ∧
    (processDocumentsStep Option.none files = .successResult
      (files.map docItemResult)
      ((files.map docItemResult).filter (·.status_success)).length
      files.length) ∧
    ((files.map docItemResult).length = files.length) ∧
    (vectorProcessingStep Option.none items = .successResult
      (items.map vecItemResult)
      ((items.map vecItemResult).filter (·.status_success)).length
      items.length) ∧
    (docItemResult (FileInput.mk p (.raises em)) =
      ItemResult.mk p false Option.none (some em)) ∧
    (vecItemResult (VecInput.mk p (.raises em)) =
      VecItemResult.mk p false Option.none (some em)) := by
  refine ⟨rfl, rfl, ?_, by simp, ?_, rfl, rfl⟩
  · rw [processDocumentsStep]
    simp only [docLoop_eq, List.nil_append]
  · rw [vectorProcessingStep]
    simp only [vecLoop_eq, List.nil_append]

/-- **C9** counterexample: on the synchronous upload path a successfully
processed one-item task's whole status history is `["completed"]` — it
never was `pending`, and `processing` is skipped although the task had one
item, violating the claimed strict progression. -/
theorem claim_task_progression_cex :
    ((uploadPolicyTaskHistory true []).map TaskState.status =
      ["completed".toList]) ∧
    ¬ claimedTaskProgression
      ((uploadPolicyTaskHistory true []).map TaskState.status) 1 := by
  refine ⟨rfl, ?_⟩
  intro h
  obtain ⟨-, hhead, -⟩ := h
  have : "completed".toList = "pending".toList := hhead _ rfl
  exact absurd this (by decide)

/-- **C9** corrected.  On the synchronous `upload_policy` path the
`ProcessingTask` record is created exactly once, directly in a terminal
state — `completed` with progress 100 on success, `failed` with progress 0
and the error message on failure — so `pending` and `processing` never
occur in its lifetime on this path (although `pending` is the model's
declared column default); with a single-state history, progress trivially
stays in 0–100 and never decreases, and the terminal state is final. -/
theorem claim_task_progression (ok : Bool) (msg : Str) :
    (uploadPolicyTask true msg =
      TaskState.mk "completed".toList 100 Option.none) ∧
    (uploadPolicyTask false msg = TaskState.mk "failed".toList 0 (some msg)) ∧
    (List.Chain' (fun a b => a.progress ≤ b.progress)
      (uploadPolicyTaskHistory ok msg)) ∧
    (((uploadPolicyTaskHistory ok msg).all fun t =>
      (t.status == "completed".toList || t.status == "failed".toList) &&
      (decide (0 ≤ t.progress) && decide (t.progress ≤ 100))) = true) ∧
    ("pending".toList ∉
      (uploadPolicyTaskHistory ok msg).map TaskState.status) ∧
    ("processing".toList ∉
      (uploadPolicyTaskHistory ok msg).map TaskState.status) ∧
    (processingTaskDefault.status = "pending".toList) := by
  cases ok <;>
    refine ⟨rfl, rfl, List.chain'_singleton _, ?_, ?_, ?_, rfl⟩ <;>
    simp [uploadPolicyTaskHistory, uploadPolicyTask]

/-- **C3** — The result sequence of `search_similar_chunks` carries
non-increasing similarity scores (the real value `SimKey.val` of each
reported `similarity`), holds at most `top_k` entries, and the underlying
sort is a stable permutation: the ranked candidates are a permutation of
the scored candidates, and within any one equal-score class the original
chunk insertion order is preserved. -/
theorem claim_search_ranking (vs : VectorService) (query : Str)
    (top_k : ℕ) (fs : List DBFilter) (n : ℕ) (st : VectorService)
    (qe : List ℚ) :
    (∀ out, searchSimilarChunks vs query top_k fs = Except.ok out →
      out.1.length ≤ top_k ∧
      List.Pairwise
        (fun r1 r2 : SearchResult => r2.simKey.val ≤ r1.simKey.val)
        out.1) ∧
    ((rankedCandidates n st qe fs).Perm (scoredCandidates n st qe fs)) ∧
    (∀ k₀ : SimKey, 0 < k₀.csq →
      (rankedCandidates n st qe fs).filter (fun p => sameScore p.2 k₀) =
      (scoredCandidates n st qe fs).filter
        (fun p => sameScore p.2 k₀)) := by
  have htot : ∀ a b : PolicyChunk × SimKey,
      ¬ simPairGeq a b = true → simPairGeq b a = true :=
    fun a b h => simGeq_total a.2 b.2 h
  have htransP : ∀ a b c : PolicyChunk × SimKey,
      (0 < a.2.csq) → (0 < b.2.csq) → (0 < c.2.csq) →
      simPairGeq a b = true → simPairGeq b c = true →
      simPairGeq a c = true :=
    fun a b c ha hb hc h1 h2 => simGeq_trans a.2 b.2 c.2 ha hb hc h1 h2
  have hPscored : ∀ (m : ℕ) (sv : VectorService) (e : List ℚ),
      ∀ p ∈ scoredCandidates m sv e fs,
      epsNormSq ≤ p.2.csq ∧ p.2.qsq = sqnorm e := by
    intro m sv e p hp
    obtain ⟨-, h1, h2, -⟩ := scoredCandidates_mem hp
    exact ⟨h1, h2⟩
  have hPpos : ∀ (m : ℕ) (sv : VectorService) (e : List ℚ),
      ∀ p ∈ scoredCandidates m sv e fs, 0 < p.2.csq :=
    fun m sv e p hp =>
      lt_of_lt_of_le epsNormSq_pos (hPscored m sv e p hp).1
  have hsorted : ∀ (m : ℕ) (sv : VectorService) (e : List ℚ),
      (rankedCandidates m sv e fs).Pairwise
        (fun a b => simPairGeq a b = true) :=
    fun m sv e => sortDesc_pairwise simPairGeq (fun p => 0 < p.2.csq)
      htot htransP _ (hPpos m sv e)
  refine ⟨?_, sortDesc_perm _ _, ?_⟩
  · intro out hok
    obtain ⟨qe', hg, hcase⟩ := searchSimilarChunks_ok hok
    rcases hcase with hnil | ⟨hz, n', hv, hform⟩
    · rw [hnil]
      exact ⟨by simp, by simp⟩
    · rw [hform]
      constructor
      · have hsub := extractResults_keys_sublist out.2.jsonLoads
          (pyLower query) (topRanked n' out.2 qe' top_k fs) []
        have hlen := hsub.length_le
        rw [List.length_map, List.length_map] at hlen
        calc (extractResults out.2.jsonLoads (pyLower query) []
                (topRanked n' out.2 qe' top_k fs)).length
            ≤ (topRanked n' out.2 qe' top_k fs).length := hlen
          _ ≤ top_k := by
              rw [topRanked]
              exact (List.length_take_le _ _)
      · have htopsorted : (topRanked n' out.2 qe' top_k fs).Pairwise
            (fun a b => simPairGeq a b = true) :=
          (hsorted n' out.2 qe').sublist (List.take_sublist _ _)
        have hkeys : ((topRanked n' out.2 qe' top_k fs).map (·.2)).Pairwise
            (fun a b : SimKey => simGeq a b = true) :=
          List.pairwise_map.mpr htopsorted
        have hsubkeys := extractResults_keys_sublist out.2.jsonLoads
          (pyLower query) (topRanked n' out.2 qe' top_k fs) []
        have hressorted : ((extractResults out.2.jsonLoads
            (pyLower query) [] (topRanked n' out.2 qe' top_k fs)).map
              SearchResult.simKey).Pairwise
            (fun a b : SimKey => simGeq a b = true) :=
          hkeys.sublist hsubkeys
        have hmemP : ∀ k ∈ (extractResults out.2.jsonLoads
            (pyLower query) [] (topRanked n' out.2 qe' top_k fs)).map
              SearchResult.simKey,
            0 < k.csq ∧ k.qsq = sqnorm qe' := by
          intro k hk
          have hk2 := hsubkeys.mem hk
          rw [List.mem_map] at hk2
          obtain ⟨p, hp, hpk⟩ := hk2
          have hp2 : p ∈ scoredCandidates n' out.2 qe' fs :=
            mem_sortDesc _ (List.mem_of_mem_take hp)
          rw [← hpk]
          exact ⟨hPpos n' out.2 qe' p hp2, (hPscored n' out.2 qe' p hp2).2⟩
        have hval : ((extractResults out.2.jsonLoads
            (pyLower query) [] (topRanked n' out.2 qe' top_k fs)).map
              SearchResult.simKey).Pairwise
            (fun a b : SimKey => b.val ≤ a.val) := by
          refine hressorted.imp_of_mem ?_
          intro a b ha hb hab
          obtain ⟨hac, haq⟩ := hmemP a ha
          obtain ⟨hbc, hbq⟩ := hmemP b hb
          exact simGeq_val_le a b hac hbc (haq.trans hbq.symm) hab
        exact List.pairwise_map.mp hval
  · intro k₀ hk₀
    exact sortDesc_filter simPairGeq (fun p => 0 < p.2.csq)
      htransP htot (fun p => sameScore p.2 k₀)
      (by
        intro a b hPa hPb hpa hpb
        simp only [sameScore, Bool.and_eq_true] at hpa hpb
        exact simGeq_trans a.2 k₀ b.2 hPa hk₀ hPb hpa.1 hpb.2) _
      (hPpos n st qe)

theorem claim_search_ranking_witness :
    (0 < (SimKey.mk 1 1 1).csq) ∧
    ((rankedCandidates 3 (VectorService.mk (some 3) true (fun _ => 3)
        (fun _ => [1, 0, 0]) (fun _ => Option.none) [])
        [1, 0, 0] []).filter
          (fun p => sameScore p.2 (SimKey.mk 1 1 1)) =
    (scoredCandidates 3 (VectorService.mk (some 3) true (fun _ => 3)
        (fun _ => [1, 0, 0]) (fun _ => Option.none) [])
        [1, 0, 0] []).filter
          (fun p => sameScore p.2 (SimKey.mk 1 1 1))) :=
  ⟨by norm_num,
   (claim_search_ranking (VectorService.mk (some 3) true (fun _ => 3)
     (fun _ => [1, 0, 0]) (fun _ => Option.none) [])
     "total premium".toList 5 [] 3
     (VectorService.mk (some 3) true (fun _ => 3)
       (fun _ => [1, 0, 0]) (fun _ => Option.none) [])
     [1, 0, 0]).2.2 (SimKey.mk 1 1 1) (by norm_num)⟩

end PolicyParser
